import Mathlib

/-!
# ExpressPay client: request signing and error-envelope parsing

A shallow embedding of `signature.go` (with the parts of `types.go` and `client.go` it
relies on) and theorems about it.

Modelling conventions.

* Go strings are Lean `String`s, that is, valid Unicode text.
* A Go `map[string]string` that is ranged over is the list of its entries in the order
  the `range` loop visits them; the keys of a map are pairwise distinct, and two visit
  orders of one map are permutations of each other.
* Bytes and machine words are natural numbers, reduced modulo `2 ^ 8` and `2 ^ 32`.
* The standard-library routines the code calls (`strings.ToLower`, `strings.ToUpper`,
  `hex.EncodeToString`, `hmac.New(sha1.New, key)`, `strconv.ParseInt`, the decoding rules
  of `encoding/json`) are written out from their definitions.  The Unicode case tables
  they consult for runes outside ASCII are a parameter, `UnicodeTables`.
* A response body is given to `parseAPIError` as the JSON value the decoder reads at its
  head; for `Client.do`, which also returns the body itself, the reader is a parameter
  (`Library.readValue`).  Transport is not modelled: `Client.do` is its handling of a
  response that has been received.
-/

namespace ExpressPay

/-! ## Strings, case mapping, bytes -/

/-- Unicode case tables consulted by the Go standard library for runes outside ASCII:
`unicode.ToLower`, `unicode.ToUpper` and the simple case folding used to match JSON
object keys against struct fields. -/
structure UnicodeTables where
  lower : Char → Char
  upper : Char → Char
  fold : Char → Char

/-- Tables that leave every rune outside ASCII unchanged. -/
def UnicodeTables.ascii : UnicodeTables := ⟨id, id, id⟩

/-- `unicode.ToLower`: ASCII letters are lowered directly, other runes go through the table. -/
def lowerRune (U : UnicodeTables) (c : Char) : Char :=
  if c.toNat < 128 then c.toLower else U.lower c

/-- `unicode.ToUpper`. -/
def upperRune (U : UnicodeTables) (c : Char) : Char :=
  if c.toNat < 128 then c.toUpper else U.upper c

/-- `strings.ToLower`: every rune mapped with `unicode.ToLower`. -/
def toLower (U : UnicodeTables) (s : String) : String :=
  String.mk (s.data.map (lowerRune U))

/-- `strings.ToUpper`. -/
def toUpper (U : UnicodeTables) (s : String) : String :=
  String.mk (s.data.map (upperRune U))

/-- UTF-8 encoding of one rune, as bytes. -/
def utf8Rune (c : Char) : List Nat :=
  let n := c.toNat
  if n < 0x80 then [n]
  else if n < 0x800 then [0xC0 + n / 64, 0x80 + n % 64]
  else if n < 0x10000 then [0xE0 + n / 4096, 0x80 + n / 64 % 64, 0x80 + n % 64]
  else [0xF0 + n / 262144, 0x80 + n / 4096 % 64, 0x80 + n / 64 % 64, 0x80 + n % 64]

/-- The conversion `[]byte(s)`: the UTF-8 bytes of a string. -/
def utf8Bytes (s : String) : List Nat :=
  s.data.flatMap utf8Rune

/-- The digit table of `encoding/hex`. -/
def hextable : List Char := "0123456789abcdef".data

/-- Hex digit `hextable[n]`. -/
def hexDigit (n : Nat) : Char := hextable.getD n '0'

/-- `hex.EncodeToString`: two lower-case hex digits per byte, high nibble first. -/
def hexEncode (bs : List Nat) : String :=
  String.mk (bs.flatMap fun b => [hexDigit (b / 16 % 16), hexDigit (b % 16)])

/-! ## SHA-1 and HMAC (`crypto/sha1`, `crypto/hmac`) -/

/-- Rotate a 32-bit word left by `n` bits. -/
def rotl32 (n x : Nat) : Nat :=
  ((x <<< n) ||| (x >>> (32 - n))) % 2 ^ 32

/-- Big-endian bytes of a 32-bit word. -/
def wordBytes (w : Nat) : List Nat :=
  [w / 2 ^ 24 % 256, w / 2 ^ 16 % 256, w / 2 ^ 8 % 256, w % 256]

/-- Big-endian 32-bit word made of the given bytes. -/
def bytesWord (bs : List Nat) : Nat :=
  bs.foldl (fun acc b => (acc * 256 + b % 256) % 2 ^ 32) 0

/-- The five chaining words of SHA-1. -/
structure Sha1State where
  h0 : Nat
  h1 : Nat
  h2 : Nat
  h3 : Nat
  h4 : Nat
deriving DecidableEq, Repr

/-- Initial chaining value. -/
def sha1Init : Sha1State :=
  ⟨0x67452301, 0xEFCDAB89, 0x98BADCFE, 0x10325476, 0xC3D2E1F0⟩

/-- Message padding: a `0x80` byte, zero bytes up to 56 modulo 64, and the bit length as a
64-bit big-endian integer. -/
def sha1Pad (msg : List Nat) : List Nat :=
  let l := msg.length
  let zeros := (64 - (l + 9) % 64) % 64
  let bits := 8 * l
  msg ++ 0x80 :: List.replicate zeros 0 ++
    [bits / 2 ^ 56 % 256, bits / 2 ^ 48 % 256, bits / 2 ^ 40 % 256, bits / 2 ^ 32 % 256,
     bits / 2 ^ 24 % 256, bits / 2 ^ 16 % 256, bits / 2 ^ 8 % 256, bits % 256]

/-- Message schedule: `n` more words are computed from the words so far, which are kept
most recent first. -/
def sha1Schedule : Nat → List Nat → List Nat
  | 0, ws => ws
  | n + 1, ws =>
    let w := rotl32 1 (ws.getD 2 0 ^^^ ws.getD 7 0 ^^^ ws.getD 13 0 ^^^ ws.getD 15 0)
    sha1Schedule n (w :: ws)

/-- Round function of round `t`. -/
def sha1F (t b c d : Nat) : Nat :=
  if t < 20 then (b &&& c) ||| ((b ^^^ (2 ^ 32 - 1)) &&& d)
  else if t < 40 then b ^^^ c ^^^ d
  else if t < 60 then (b &&& c) ||| (b &&& d) ||| (c &&& d)
  else b ^^^ c ^^^ d

/-- Round constant of round `t`. -/
def sha1K (t : Nat) : Nat :=
  if t < 20 then 0x5A827999
  else if t < 40 then 0x6ED9EBA1
  else if t < 60 then 0x8F1BBCDC
  else 0xCA62C1D6

/-- One round: `tw` is the round number with its schedule word. -/
def sha1Round (s : Sha1State) (tw : Nat × Nat) : Sha1State :=
  let temp := (rotl32 5 s.h0 + sha1F tw.1 s.h1 s.h2 s.h3 + s.h4 + sha1K tw.1 + tw.2) % 2 ^ 32
  ⟨temp, s.h0, rotl32 30 s.h1, s.h2, s.h3⟩

/-- Compression of one 64-byte block into the chaining value. -/
def sha1Block (s : Sha1State) (block : List Nat) : Sha1State :=
  let w16 := (List.range 16).map fun i => bytesWord ((block.drop (4 * i)).take 4)
  let w := (sha1Schedule 64 w16.reverse).reverse
  let r := ((List.range 80).zip w).foldl sha1Round s
  ⟨(s.h0 + r.h0) % 2 ^ 32, (s.h1 + r.h1) % 2 ^ 32, (s.h2 + r.h2) % 2 ^ 32,
   (s.h3 + r.h3) % 2 ^ 32, (s.h4 + r.h4) % 2 ^ 32⟩

/-- SHA-1 digest (20 bytes) of a byte string. -/
def sha1 (msg : List Nat) : List Nat :=
  let p := sha1Pad msg
  let s := (List.range (p.length / 64)).foldl
    (fun s i => sha1Block s ((p.drop (64 * i)).take 64)) sha1Init
  wordBytes s.h0 ++ wordBytes s.h1 ++ wordBytes s.h2 ++ wordBytes s.h3 ++ wordBytes s.h4

/-- The digest `hmac.New(sha1.New, key)` yields after `Write(msg)` and `Sum(nil)`: a key
longer than the 64-byte block is hashed first, then padded with zero bytes. -/
def hmacSha1 (key msg : List Nat) : List Nat :=
  let k0 := if key.length > 64 then sha1 key else key
  let k := k0 ++ List.replicate (64 - k0.length) 0
  sha1 (k.map (· ^^^ 0x5c) ++ sha1 (k.map (· ^^^ 0x36) ++ msg))

/-! ## `signature.go`: the order table and `DefaultSignature` -/

/-- The `signatureOrder` table: action, then its keys in signing order. -/
def signatureOrder : List (String × List String) :=
  [ ("add-invoice",
      ["token", "accountno", "amount", "currency", "expiration", "info", "surname",
       "firstname", "patronymic", "city", "street", "house", "building", "apartment",
       "isnameeditable", "isaddresseditable", "isamounteditable"]),
    ("get-details-invoice", ["token", "id"]),
    ("cancel-invoice", ["token", "id"]),
    ("status-invoice", ["token", "invoiceid"]),
    ("get-list-invoices", ["token", "from", "to", "accountno", "status"]),
    ("get-list-payments", ["token", "from", "to", "accountno"]),
    ("get-details-payment", ["token", "id"]),
    ("add-card-invoice",
      ["token", "accountno", "expiration", "amount", "currency", "info", "returnurl",
       "failurl", "language", "sessiontimeoutsecs", "expirationdate", "returninvoiceurl"]),
    ("card-invoice-form", ["token", "cardinvoiceno"]),
    ("status-card-invoice", ["token", "cardinvoiceno", "language"]),
    ("reverse-card-invoice", ["token", "cardinvoiceno"]),
    ("get-qr-code", ["token", "invoiceid", "viewtype", "imagewidth", "imageheight"]),
    ("add-web-invoice",
      ["token", "serviceid", "accountno", "amount", "currency", "expiration", "info",
       "surname", "firstname", "patronymic", "city", "street", "house", "building",
       "apartment", "isnameeditable", "isaddresseditable", "isamounteditable",
       "emailnotification", "smsphone", "returntype", "returnurl", "failurl"]),
    ("add-webcard-invoice",
      ["token", "serviceid", "accountno", "expiration", "amount", "currency", "info",
       "returnurl", "failurl", "language", "sessiontimeoutsecs", "expirationdate",
       "returntype"]) ]

/-- A `map[string]string` under construction: its entries, keys pairwise distinct. -/
abbrev StrMap := List (String × String)

/-- The lookup `value, ok := m[key]`. -/
def StrMap.get? (m : StrMap) (key : String) : Option String :=
  List.lookup key m

/-- The assignment `m[key] = value`: an entry already under `key` is replaced. -/
def StrMap.set (m : StrMap) (key value : String) : StrMap :=
  (key, value) :: m.filter (fun e => e.1 != key)

/-- Lines 145-148 of `DefaultSignature`: the entries of `params`, in the order the `range`
loop visits them, are stored under their lower-cased keys. -/
def normalizeKeys (U : UnicodeTables) (params : List (String × String)) : StrMap :=
  params.foldl (fun m e => m.set (toLower U e.1) e.2) []

/-- Lines 150-155 of `DefaultSignature`: the builder receives, in table order, the value of
every key of `order` found in the normalised map. -/
def canonicalString (order : List String) (normalized : StrMap) : String :=
  order.foldl
    (fun b key => match normalized.get? key with
      | some value => b ++ value
      | none => b) ""

/-- Lines 157-159 of `DefaultSignature`: HMAC-SHA1 of the message under the secret, in
upper-cased hex. -/
def signMessage (U : UnicodeTables) (secret msg : String) : String :=
  toUpper U (hexEncode (hmacSha1 (utf8Bytes secret) (utf8Bytes msg)))

/-- `DefaultSignature(action, params, secret)`; `params` lists the entries of the map in
the order the `range` loop visits them. -/
def DefaultSignature (U : UnicodeTables) (action : String) (params : List (String × String))
    (secret : String) : Except String String :=
  match signatureOrder.lookup action with
  | none => .error ("unknown signature action: " ++ action)
  | some order =>
    let normalized := normalizeKeys U params
    .ok (signMessage U secret (canonicalString order normalized))

/-! ## Words used by the statements about `DefaultSignature` -/

/-- The keys of a parameter map are pairwise distinct ignoring case: no two entries have
the same lower-cased key. -/
def DistinctIgnoringCase (U : UnicodeTables) (params : List (String × String)) : Prop :=
  (params.map fun e => toLower U e.1).Nodup

instance (U : UnicodeTables) (params : List (String × String)) :
    Decidable (DistinctIgnoringCase U params) :=
  inferInstanceAs (Decidable (List.Nodup _))

/-- The parameter map after its keys are lower-cased. -/
def loweredMap (U : UnicodeTables) (params : List (String × String)) : List (String × String) :=
  params.map fun e => (toLower U e.1, e.2)

/-- The canonical string in the words of the specification: the delimiter-free
concatenation, in table order, of the values of those table keys that occur in the
map after its keys are lower-cased. -/
def specCanonical (U : UnicodeTables) (order : List String) (params : List (String × String)) :
    String :=
  String.join (order.filterMap fun key => (loweredMap U params).lookup key)

/-- The value a parameter map gives a table key, the empty string when the key is absent. -/
def valueOrEmpty (U : UnicodeTables) (params : List (String × String)) (key : String) : String :=
  ((loweredMap U params).lookup key).getD ""

/-- A key is lower-case: it consists of the ASCII letters `a` to `z` only. -/
def isLowerKey (key : String) : Bool :=
  key.data.all fun c => decide ('a' ≤ c ∧ c ≤ 'z')

/-- The cells of a table row of the specification: the text between the separators `", "`;
`cur` holds the cell being read, last character first. -/
def splitRow : List Char → List Char → List String
  | [], cur => [String.mk cur.reverse]
  | ',' :: ' ' :: rest, cur => String.mk cur.reverse :: splitRow rest []
  | c :: rest, cur => splitRow rest (c :: cur)

/-- The ordered signed fields of one row of the action catalog. -/
def specRow (row : String) : List String :=
  splitRow row.data []

/-- The action catalog of the specification (section 6), row by row: the action and its
ordered signed fields as the table gives them. -/
def specCatalog : List (String × List String) :=
  [
    ("add-invoice",
      specRow ("token, accountno, amount, currency, expiration, info, surname, " ++
        "firstname, patronymic, city, street, house, building, apartment, " ++
        "isnameeditable, isaddresseditable, isamounteditable")),
    ("get-details-invoice",
      specRow ("token, id")),
    ("cancel-invoice",
      specRow ("token, id")),
    ("status-invoice",
      specRow ("token, invoiceid")),
    ("get-list-invoices",
      specRow ("token, from, to, accountno, status")),
    ("get-list-payments",
      specRow ("token, from, to, accountno")),
    ("get-details-payment",
      specRow ("token, id")),
    ("add-card-invoice",
      specRow ("token, accountno, expiration, amount, currency, info, returnurl, " ++
        "failurl, language, sessiontimeoutsecs, expirationdate, " ++
        "returninvoiceurl")),
    ("card-invoice-form",
      specRow ("token, cardinvoiceno")),
    ("status-card-invoice",
      specRow ("token, cardinvoiceno, language")),
    ("reverse-card-invoice",
      specRow ("token, cardinvoiceno")),
    ("get-qr-code",
      specRow ("token, invoiceid, viewtype, imagewidth, imageheight")),
    ("add-web-invoice",
      specRow ("token, serviceid, accountno, amount, currency, expiration, info, " ++
        "surname, firstname, patronymic, city, street, house, building, " ++
        "apartment, isnameeditable, isaddresseditable, isamounteditable, " ++
        "emailnotification, smsphone, returntype, returnurl, failurl")),
    ("add-webcard-invoice",
      specRow ("token, serviceid, accountno, expiration, amount, currency, info, " ++
        "returnurl, failurl, language, sessiontimeoutsecs, expirationdate, " ++
        "returntype")) ]

/-! ## `strconv.ParseInt` and `intFromNumber` (`types.go`) -/

/-- The two errors of `strconv`: `ErrSyntax` and `ErrRange`. -/
inductive NumError where
  | badSyntax
  | outOfRange
deriving DecidableEq, Repr

/-- The digit loop of `strconv.ParseUint(s, 10, 64)`: `n` is the value read so far.  The
result is the value returned together with the error, if any. -/
def parseUintLoop : List Char → Nat → Nat × Option NumError
  | [], n => (n, none)
  | c :: cs, n =>
    if '0' ≤ c ∧ c ≤ '9' then
      if n ≥ (2 ^ 64 - 1) / 10 + 1 then (2 ^ 64 - 1, some .outOfRange)
      else
        let n1 := n * 10 + (c.toNat - '0'.toNat)
        if n1 > 2 ^ 64 - 1 then (2 ^ 64 - 1, some .outOfRange)
        else parseUintLoop cs n1
    else (0, some .badSyntax)

/-- `strconv.ParseUint(s, 10, 64)`. -/
def parseUint (s : List Char) : Nat × Option NumError :=
  match s with
  | [] => (0, some .badSyntax)
  | _ => parseUintLoop s 0

/-- `strconv.ParseInt(s, 10, 64)`: the value returned and the error, if any.  A syntax
error returns 0, a range error returns the nearest bound of the 64-bit range. -/
def parseInt (s : String) : Int × Option NumError :=
  match s.data with
  | [] => (0, some .badSyntax)
  | c :: rest =>
    let neg := decide (c = '-')
    let digits := if c = '+' ∨ c = '-' then rest else c :: rest
    match parseUint digits with
    | (_, some .badSyntax) => (0, some .badSyntax)
    | (un, _) =>
      if !neg && decide (un ≥ 2 ^ 63) then (2 ^ 63 - 1, some .outOfRange)
      else if neg && decide (un > 2 ^ 63) then (-(2 ^ 63), some .outOfRange)
      else (if neg then -(un : Int) else (un : Int), none)

/-- `intFromNumber`: 0 for the empty number, otherwise the value `n.Int64()` returns, its
error dropped; `int` is 64 bits wide, so the conversion `int(v)` keeps the value. -/
def intFromNumber (n : String) : Int :=
  if n = "" then 0 else (parseInt n).1

/-! ## `encoding/json`: values and the decoding of the error envelope -/

/-- A JSON value; a number carries its literal text. -/
inductive JSON where
  | null
  | bool (b : Bool)
  | number (literal : String)
  | string (s : String)
  | array (items : List JSON)
  | object (members : List (String × JSON))

/-- Digits at the head of the text are dropped. -/
def dropDigits (s : List Char) : List Char :=
  s.dropWhile fun c => decide ('0' ≤ c ∧ c ≤ '9')

/-- End of `isValidNumber`: an optional exponent part, then the end of the text. -/
def validExponent (s : List Char) : Bool :=
  match s with
  | e :: c :: rest =>
    if e = 'e' ∨ e = 'E' then
      if c = '+' ∨ c = '-' then
        match rest with
        | [] => false
        | _ => dropDigits rest == []
      else dropDigits (c :: rest) == []
    else false
  | [] => true
  | _ => false

/-- Middle of `isValidNumber`: an optional fraction part, then the exponent part. -/
def validFraction (s : List Char) : Bool :=
  match s with
  | '.' :: c :: rest =>
    if '0' ≤ c ∧ c ≤ '9' then validExponent (dropDigits rest) else validExponent s
  | _ => validExponent s

/-- `isValidNumber` of `encoding/json`: the text is a JSON number literal. -/
def isValidNumber (s : String) : Bool :=
  match s.data with
  | [] => false
  | c :: rest =>
    match (if c = '-' then rest else c :: rest) with
    | [] => false
    | d :: tail =>
      if d = '0' then validFraction tail
      else if '1' ≤ d ∧ d ≤ '9' then validFraction (dropDigits tail)
      else false

/-- Key folding of `encoding/json` (`foldName`): ASCII letters are upper-cased, other
runes are replaced by the representative of their case-folding class. -/
def foldName (U : UnicodeTables) (s : String) : String :=
  String.mk (s.data.map fun c => if c.toNat < 128 then c.toUpper else U.fold c)

/-- The struct field an object key is decoded into: the field of that exact name if there
is one, otherwise the first field whose name is equal to the key under case folding. -/
def findField (U : UnicodeTables) (fields : List String) (key : String) : Option String :=
  match fields.find? (fun f => f == key) with
  | some f => some f
  | none => fields.find? (fun f => foldName U f == foldName U key)

/-- Decoding into a `string` field holding `cur`: `null` leaves the field as it is, a JSON
string is stored, any other value is an `UnmarshalTypeError`. -/
def storeString (cur : String) : JSON → Option String
  | .null => some cur
  | .string s => some s
  | _ => none

/-- Decoding into a `json.Number` field: `null` leaves the field as it is, a number is
stored as its literal, a string is stored if it is a valid number literal and is an error
otherwise, any other value is an `UnmarshalTypeError`. -/
def storeNumber (cur : String) : JSON → Option String
  | .null => some cur
  | .number literal => some literal
  | .string s => if isValidNumber s then some s else none
  | _ => none

/-- Decoding into an `int` field: `null` leaves the field as it is, a number is stored if
`strconv.ParseInt` accepts its literal, any other value (a string included) is an
`UnmarshalTypeError`. -/
def storeInt (cur : Int) : JSON → Option Int
  | .null => some cur
  | .number literal =>
    match parseInt literal with
    | (v, none) => some v
    | _ => none
  | _ => none

/-- The `APIError` struct of `types.go`. -/
structure APIError where
  Code : Int := 0
  Msg : String := ""
  MsgCode : Int := 0
  ErrorCode : Int := 0
  ErrorMessage : String := ""
  HTTPStatus : Int := 0
  Raw : String := ""
deriving DecidableEq, Repr

/-- The fields of `APIError` that have a JSON name (`HTTPStatus` and `Raw` are tagged `-`). -/
def apiErrorFields : List String := ["Code", "Msg", "MsgCode", "ErrorCode", "ErrorMessage"]

/-- One member of a JSON object decoded into an `APIError`; a key that matches no field is
skipped.  `none` stands for a decoding error. -/
def APIError.storeMember (U : UnicodeTables) (e : APIError) (m : String × JSON) :
    Option APIError :=
  match findField U apiErrorFields m.1 with
  | none => some e
  | some f =>
    if f = "Code" then (storeInt e.Code m.2).map fun x => { e with Code := x }
    else if f = "Msg" then (storeString e.Msg m.2).map fun x => { e with Msg := x }
    else if f = "MsgCode" then (storeInt e.MsgCode m.2).map fun x => { e with MsgCode := x }
    else if f = "ErrorCode" then
      (storeInt e.ErrorCode m.2).map fun x => { e with ErrorCode := x }
    else (storeString e.ErrorMessage m.2).map fun x => { e with ErrorMessage := x }

/-- Decoding into the `*APIError` field holding `cur`: `null` sets the pointer to nil, an
object is decoded member by member into the struct pointed to (a fresh one if the pointer
is nil), any other value is an `UnmarshalTypeError`. -/
def storeAPIError (U : UnicodeTables) (cur : Option APIError) : JSON → Option (Option APIError)
  | .null => some none
  | .object members => (members.foldlM (APIError.storeMember U) (cur.getD {})).map some
  | _ => none

/-- The anonymous envelope struct of `parseAPIError`; `ErrorCode` is a `json.Number`. -/
structure Envelope where
  Error : Option APIError := none
  ErrorCode : String := ""
  ErrorMessage : String := ""
deriving DecidableEq, Repr

/-- The fields of the envelope. -/
def envelopeFields : List String := ["Error", "ErrorCode", "ErrorMessage"]

/-- One member of a JSON object decoded into the envelope. -/
def Envelope.storeMember (U : UnicodeTables) (env : Envelope) (m : String × JSON) :
    Option Envelope :=
  match findField U envelopeFields m.1 with
  | none => some env
  | some f =>
    if f = "Error" then (storeAPIError U env.Error m.2).map fun x => { env with Error := x }
    else if f = "ErrorCode" then
      (storeNumber env.ErrorCode m.2).map fun x => { env with ErrorCode := x }
    else (storeString env.ErrorMessage m.2).map fun x => { env with ErrorMessage := x }

/-- The function `decodeJSON` of `client.go`, at the envelope of `parseAPIError`: the call
`decodeJSON(data, &envelope)`.  The body is given by the
JSON value the decoder reads at its head, `none` when there is no such value (an empty or
malformed body).  The result is the envelope when the call returns no error: `null` leaves
the zero envelope, an object is decoded member by member in order, any other value is an
`UnmarshalTypeError`. -/
def decodeJSON (U : UnicodeTables) (data : Option JSON) : Option Envelope :=
  match data with
  | none => none
  | some .null => some {}
  | some (.object members) => members.foldlM (Envelope.storeMember U) {}
  | some _ => none

/-- `parseAPIError(data)`. -/
def parseAPIError (U : UnicodeTables) (data : Option JSON) : Option APIError :=
  match decodeJSON U data with
  | none => none
  | some envelope =>
    match envelope.Error with
    | some e => some e
    | none =>
      if envelope.ErrorMessage ≠ "" then
        some { ErrorCode := intFromNumber envelope.ErrorCode,
               ErrorMessage := envelope.ErrorMessage }
      else none

/-! ## `types.go`: `APIError.Error` and the `check` methods -/

/-- `(*APIError).Error()`; the nil receiver is `none`. -/
def APIError.Error (e : Option APIError) : String :=
  match e with
  | none => "api error"
  | some e =>
    if e.ErrorCode ≠ 0 ∨ e.ErrorMessage ≠ "" then e.ErrorMessage
    else if e.Msg ≠ "" then e.Msg
    else if e.Raw ≠ "" then e.Raw
    else "api error"

/-- `AddCardInvoiceResponse`; the `json.Number` fields hold their text. -/
structure AddCardInvoiceResponse where
  CardInvoiceNo : String := ""
  InvoiceURL : String := ""
  ErrorCode : String := ""
  ErrorMessage : String := ""
deriving DecidableEq, Repr

/-- `AddCardInvoiceResponse.check`; `none` is the nil error. -/
def AddCardInvoiceResponse.check (r : AddCardInvoiceResponse) : Option APIError :=
  if intFromNumber r.ErrorCode ≠ 0 ∨ r.ErrorMessage ≠ "" then
    some { ErrorCode := intFromNumber r.ErrorCode, ErrorMessage := r.ErrorMessage }
  else none

/-- `CardInvoiceFormResponse`. -/
structure CardInvoiceFormResponse where
  FormURL : String := ""
  ErrorCode : String := ""
  ErrorMessage : String := ""
deriving DecidableEq, Repr

/-- `CardInvoiceFormResponse.check`. -/
def CardInvoiceFormResponse.check (r : CardInvoiceFormResponse) : Option APIError :=
  if intFromNumber r.ErrorCode ≠ 0 ∨ r.ErrorMessage ≠ "" then
    some { ErrorCode := intFromNumber r.ErrorCode, ErrorMessage := r.ErrorMessage }
  else none

/-- `CardInvoiceStatusResponse`. -/
structure CardInvoiceStatusResponse where
  Amount : String := ""
  CardInvoiceStatus : String := ""
  ErrorCode : String := ""
  ErrorMessage : String := ""
deriving DecidableEq, Repr

/-- `CardInvoiceStatusResponse.check`. -/
def CardInvoiceStatusResponse.check (r : CardInvoiceStatusResponse) : Option APIError :=
  if intFromNumber r.ErrorCode ≠ 0 ∨ r.ErrorMessage ≠ "" then
    some { ErrorCode := intFromNumber r.ErrorCode, ErrorMessage := r.ErrorMessage }
  else none

/-- `CardInvoiceReverseResponse`. -/
structure CardInvoiceReverseResponse where
  ErrorCode : String := ""
  ErrorMessage : String := ""
deriving DecidableEq, Repr

/-- `CardInvoiceReverseResponse.check`. -/
def CardInvoiceReverseResponse.check (r : CardInvoiceReverseResponse) : Option APIError :=
  if intFromNumber r.ErrorCode ≠ 0 ∨ r.ErrorMessage ≠ "" then
    some { ErrorCode := intFromNumber r.ErrorCode, ErrorMessage := r.ErrorMessage }
  else none

/-! ## `client.go`: `applySignature` and the response handling of `do` -/

/-- The entries of a non-nil `url.Values`: key, then its values. -/
abbrev ValueEntries := List (String × List String)

/-- A `url.Values`; `none` is the nil map. -/
abbrev Values := Option ValueEntries

/-- `url.Values.Set`: the key is given the single value, replacing what it had. -/
def ValueEntries.Set (v : ValueEntries) (key value : String) : ValueEntries :=
  (key, [value]) :: v.filter (fun e => e.1 != key)

/-- The lookup `v[key]`; a nil map has no entry. -/
def Values.get? (v : Values) (key : String) : Option (List String) :=
  match v with
  | none => none
  | some entries => List.lookup key entries

/-- A `SignatureFunc`: action, the entries of the parameter map in visit order, secret. -/
abbrev SignatureFunc := String → List (String × String) → String → Except String String

/-- The fields of `Client` that take part in signing; a nil `SignatureFunc` is `none`. -/
structure Client where
  BaseURL : String
  Token : String
  Secret : String
  UseSignature : Bool
  SignatureFunc : Option SignatureFunc

/-- Outcome of `applySignature`: the error returned (`none` for nil) and the two maps as
the call leaves them. -/
structure Applied where
  err : Option String
  query : Values
  form : Values

/-- `Client.applySignature(action, params, query, form, inQuery)`. -/
def Client.applySignature (c : Client) (action : String) (params : List (String × String))
    (query form : Values) (inQuery : Bool) : Applied :=
  if !c.UseSignature && c.Secret == "" then ⟨none, query, form⟩
  else
    match c.SignatureFunc with
    | none => ⟨some "signature function is not configured", query, form⟩
    | some f =>
      match f action params c.Secret with
      | .error err => ⟨some err, query, form⟩
      | .ok sig =>
        if inQuery then
          match query with
          | some q => ⟨none, some (q.Set "signature" sig), form⟩
          | none => ⟨none, query, form⟩
        else
          match form with
          | some fm => ⟨none, query, some (fm.Set "Signature" sig)⟩
          | none => ⟨none, query, form⟩

/-- The calls of `applySignature` in `client.go`, in source order: the calling method, the
action and the `inQuery` argument.  The calls with `inQuery = true` pass a fresh non-nil
`query` and a nil `form`; the two others pass a nil `query` and a non-nil `form`. -/
def applySignatureCalls : List (String × String × Bool) :=
  [ ("ListInvoices", "get-list-invoices", true),
    ("CreateInvoice", "add-invoice", true),
    ("GetInvoice", "get-details-invoice", true),
    ("GetInvoiceStatus", "status-invoice", true),
    ("CancelInvoice", "cancel-invoice", true),
    ("ListPayments", "get-list-payments", true),
    ("GetPayment", "get-details-payment", true),
    ("GetQRCode", "get-qr-code", true),
    ("CreateCardInvoice", "add-card-invoice", true),
    ("GetCardInvoicePaymentForm", "card-invoice-form", true),
    ("GetCardInvoiceStatus", "status-card-invoice", true),
    ("ReverseCardInvoice", "reverse-card-invoice", true),
    ("CreateWebInvoice", "add-web-invoice", false),
    ("CreateWebCardInvoice", "add-webcard-invoice", false) ]

/-- What `Client.do` takes from the Go standard library without it being written out
here: the case tables, the reader of `encoding/json` (the JSON value at the head of a
body, `none` for an empty or malformed body) and `unicode.IsSpace` outside ASCII. -/
structure Library where
  tables : UnicodeTables
  readValue : String → Option JSON
  space : Char → Bool

/-- `unicode.IsSpace`. -/
def isSpace (L : Library) (c : Char) : Bool :=
  if c.toNat < 128 then
    c == '\t' || c == '\n' || c == '\x0b' || c == '\x0c' || c == '\r' || c == ' '
  else L.space c

/-- `strings.TrimSpace`: white space is removed at both ends. -/
def trimSpace (L : Library) (s : String) : String :=
  String.mk (((s.data.dropWhile (isSpace L)).reverse.dropWhile (isSpace L)).reverse)

/-- An error returned by `Client.do`: an `*APIError`, or an error built by `fmt.Errorf`. -/
inductive CallError where
  | api (e : APIError)
  | other (msg : String)
deriving DecidableEq, Repr

/-- Lines 617-624 of `Client.do`: what the call returns once the response, with status
`StatusCode` and body `data`, has been read. -/
def Client.doResponse (L : Library) (StatusCode : Int) (data : String) :
    Except CallError String :=
  match parseAPIError L.tables (L.readValue data) with
  | some apiErr => .error (.api { apiErr with HTTPStatus := StatusCode })
  | none =>
    if StatusCode ≥ 400 then
      .error (.other ("unexpected status " ++ toString StatusCode ++ ": " ++ trimSpace L data))
    else .ok data

/-! ## Words used by the statements about `intFromNumber` -/

/-- The number a text of decimal digits denotes. -/
def digitsValue (cs : List Char) : Nat :=
  cs.foldl (fun acc c => acc * 10 + (c.toNat - '0'.toNat)) 0

/-- The text consists of decimal digits, one at least. -/
def isDigits (cs : List Char) : Bool :=
  cs != [] && cs.all fun c => decide ('0' ≤ c ∧ c ≤ '9')

/-- The integer a text denotes when it is a decimal integer: digits, after an optional
sign. -/
def decimalInteger (s : String) : Option Int :=
  match s.data with
  | [] => none
  | c :: rest =>
    if c = '-' then (if isDigits rest then some (-(digitsValue rest : Int)) else none)
    else if c = '+' then (if isDigits rest then some (digitsValue rest : Int) else none)
    else if isDigits (c :: rest) then some (digitsValue (c :: rest) : Int) else none

/-! # Theorems -/

/-! ## General lemmas on lists and strings -/

theorem lookup_filter_ne (m : List (String × String)) (k k' : String) (h : k' ≠ k) :
    List.lookup k' (m.filter (fun e => e.1 != k)) = List.lookup k' m := by
  induction m with
  | nil => rfl
  | cons e m ih =>
    obtain ⟨a, b⟩ := e
    by_cases hak : a = k
    · subst hak
      have hne : (k' == a) = false := by simpa using h
      simp [List.lookup, hne, ih]
    · have hf : (a != k) = true := by simpa using hak
      rw [List.filter_cons_of_pos (by simpa using hak)]
      simp only [List.lookup]
      rw [ih]

theorem StrMap.get?_set (m : StrMap) (k v k' : String) :
    (m.set k v).get? k' = if k' = k then some v else m.get? k' := by
  unfold StrMap.set StrMap.get?
  by_cases h : k' = k
  · subst h; simp [List.lookup]
  · have hne : (k' == k) = false := by simpa using h
    simp [List.lookup, hne, h, lookup_filter_ne m k k' h]

theorem lookup_perm {l₁ l₂ : List (String × String)} (h : l₁.Perm l₂)
    (nd : (l₁.map Prod.fst).Nodup) (k : String) : l₁.lookup k = l₂.lookup k := by
  induction h with
  | nil => rfl
  | cons x _ ih =>
    obtain ⟨a, b⟩ := x
    simp only [List.map_cons, List.nodup_cons] at nd
    simp only [List.lookup]
    rw [ih nd.2]
  | swap x y l =>
    obtain ⟨a, b⟩ := x
    obtain ⟨c, d⟩ := y
    simp only [List.map_cons, List.nodup_cons, List.mem_cons, not_or] at nd
    have hca : c ≠ a := nd.1.1
    by_cases h1 : k = a
    · subst h1
      have : (k == c) = false := by simpa using fun h => hca h.symm
      simp [List.lookup, this]
    · have : (k == a) = false := by simpa using h1
      simp [List.lookup, this]
  | trans h₁ _ ih₁ ih₂ =>
    rw [ih₁ nd, ih₂ ((h₁.map Prod.fst).nodup_iff.mp nd)]

theorem foldl_append_init (l : List String) (init : String) :
    l.foldl (fun r s => r ++ s) init = init ++ String.join l := by
  unfold String.join
  induction l generalizing init with
  | nil => simp
  | cons a l ih => simp only [List.foldl_cons]; rw [ih, ih ("" ++ a)]; simp [String.append_assoc]

theorem join_cons (a : String) (l : List String) : String.join (a :: l) = a ++ String.join l := by
  have := foldl_append_init (a :: l) ""
  simp only [List.foldl_cons, String.empty_append] at this
  unfold String.join
  simp only [List.foldl_cons, String.empty_append]
  exact foldl_append_init l a

theorem join_nil : String.join [] = "" := rfl

theorem join_append (l₁ l₂ : List String) :
    String.join (l₁ ++ l₂) = String.join l₁ ++ String.join l₂ := by
  induction l₁ with
  | nil => simp [join_nil]
  | cons a l ih => simp [join_cons, ih, String.append_assoc]

theorem join_filterMap_eq_map_getD (f : String → Option String) (l : List String) :
    String.join (l.filterMap f) = String.join (l.map fun k => (f k).getD "") := by
  induction l with
  | nil => rfl
  | cons a l ih =>
    cases h : f a with
    | none => simp [List.filterMap_cons, h, join_cons, ih]
    | some v => simp [List.filterMap_cons, h, join_cons, ih]

theorem string_append_left_cancel {a b c : String} (h : a ++ b = a ++ c) : b = c := by
  apply String.ext
  have := congrArg String.data h
  simpa [String.data_append] using this

theorem string_append_right_cancel {a b c : String} (h : a ++ c = b ++ c) : a = b := by
  apply String.ext
  have := congrArg String.data h
  simpa [String.data_append] using this

/-! ## The normalised map and the canonical string -/

theorem get?_foldl_set (U : UnicodeTables) (params : List (String × String)) (m0 : StrMap)
    (k : String) :
    (params.foldl (fun m e => m.set (toLower U e.1) e.2) m0).get? k =
      ((loweredMap U params).reverse.lookup k).or (m0.get? k) := by
  induction params generalizing m0 with
  | nil => simp [loweredMap, List.lookup]
  | cons e ps ih =>
    simp only [List.foldl_cons]
    rw [ih]
    simp only [loweredMap, List.map_cons, List.reverse_cons, List.lookup_append]
    rw [StrMap.get?_set]
    by_cases h : k = toLower U e.1
    · subst h
      cases hx : List.lookup (toLower U e.1) (List.map (fun e => (toLower U e.1, e.2)) ps).reverse <;>
        simp [List.lookup]
    · have hne : (k == toLower U e.1) = false := by simpa using h
      cases hx : List.lookup k (List.map (fun e => (toLower U e.1, e.2)) ps).reverse <;>
        simp [List.lookup, hne, h]

theorem loweredMap_keys (U : UnicodeTables) (params : List (String × String)) :
    (loweredMap U params).map Prod.fst = params.map fun e => toLower U e.1 := by
  simp [loweredMap, List.map_map, Function.comp_def]

theorem get?_normalizeKeys (U : UnicodeTables) (params : List (String × String))
    (hD : DistinctIgnoringCase U params) (k : String) :
    (normalizeKeys U params).get? k = (loweredMap U params).lookup k := by
  unfold normalizeKeys
  rw [get?_foldl_set]
  have hnd : ((loweredMap U params).map Prod.fst).Nodup := by
    rw [loweredMap_keys]; exact hD
  rw [← lookup_perm (List.reverse_perm _).symm hnd k]
  simp [StrMap.get?, List.lookup]

theorem canonicalString_eq_join (order : List String) (m : StrMap) :
    canonicalString order m = String.join (order.filterMap m.get?) := by
  unfold canonicalString
  suffices h : ∀ init : String,
      order.foldl (fun b key => match m.get? key with
        | some value => b ++ value
        | none => b) init = init ++ String.join (order.filterMap m.get?) by
    simpa using h ""
  induction order with
  | nil => intro init; simp [join_nil]
  | cons key rest ih =>
    intro init
    simp only [List.foldl_cons]
    cases h : m.get? key with
    | none => simp [List.filterMap_cons, h, ih]
    | some v => simp [List.filterMap_cons, h, ih, join_cons, String.append_assoc]

theorem canonicalString_normalizeKeys (U : UnicodeTables) (order : List String)
    (params : List (String × String)) (hD : DistinctIgnoringCase U params) :
    canonicalString order (normalizeKeys U params) = specCanonical U order params := by
  rw [canonicalString_eq_join]
  unfold specCanonical
  congr 1
  apply List.filterMap_congr
  intro k _
  exact get?_normalizeKeys U params hD k

theorem lookup_eq_none_iff_not_mem {β : Type} (l : List (String × β)) (k : String) :
    l.lookup k = none ↔ k ∉ l.map Prod.fst := by
  induction l with
  | nil => simp [List.lookup]
  | cons e l ih =>
    obtain ⟨a, b⟩ := e
    by_cases h : k = a
    · subst h; simp [List.lookup]
    · have hne : (k == a) = false := by simpa using h
      simp only [List.lookup, hne, List.map_cons, List.mem_cons, not_or]
      rw [ih]
      exact ⟨fun h2 => ⟨h, h2⟩, fun h2 => h2.2⟩

theorem mem_of_lookup_eq_some {β : Type} (l : List (String × β)) (k : String) (v : β)
    (h : l.lookup k = some v) : (k, v) ∈ l := by
  induction l with
  | nil => simp [List.lookup] at h
  | cons e l ih =>
    obtain ⟨a, b⟩ := e
    by_cases hk : k = a
    · subst hk
      simp [List.lookup] at h
      simp [h]
    · have hne : (k == a) = false := by simpa using hk
      simp only [List.lookup, hne] at h
      exact List.mem_cons_of_mem _ (ih h)

/-! ## Shape of a signature -/

theorem sha1_length (msg : List Nat) : (sha1 msg).length = 20 := by
  simp [sha1, wordBytes]

theorem hmacSha1_length (key msg : List Nat) : (hmacSha1 key msg).length = 20 := by
  unfold hmacSha1
  exact sha1_length _

theorem hexEncode_length (bs : List Nat) : (hexEncode bs).length = 2 * bs.length := by
  unfold hexEncode
  show (List.flatMap _ _).length = _
  induction bs with
  | nil => rfl
  | cons b bs ih => simp only [List.flatMap_cons, List.length_append, ih, List.length_cons]; simp; omega

theorem upperRune_hexDigit (U : UnicodeTables) (n : Nat) :
    upperRune U (hexDigit (n % 16)) ∈ "0123456789ABCDEF".data := by
  have h : n % 16 < 16 := Nat.mod_lt _ (by decide)
  generalize n % 16 = r at h
  interval_cases r <;> simp [upperRune, hexDigit, hextable, Char.toUpper]

theorem toUpper_hexEncode_digits (U : UnicodeTables) (bs : List Nat) :
    ∀ c ∈ (toUpper U (hexEncode bs)).data, c ∈ "0123456789ABCDEF".data := by
  intro c hc
  simp only [toUpper, hexEncode, List.mem_map, List.mem_flatMap] at hc
  obtain ⟨d, ⟨b, _, hd⟩, rfl⟩ := hc
  simp only [List.mem_cons, List.mem_singleton, List.not_mem_nil, or_false] at hd
  rcases hd with rfl | rfl
  · exact upperRune_hexDigit U (b / 16)
  · exact upperRune_hexDigit U b

/-- The digest of `"abc"` given in RFC 3174. -/
theorem sha1_abc :
    hexEncode (sha1 (utf8Bytes "abc")) = "a9993e364706816aba3e25717850c26c9cd0d89d" := by
  decide!

/-- The second HMAC-SHA1 test case of RFC 2202. -/
theorem hmacSha1_rfc2202 :
    hexEncode (hmacSha1 (utf8Bytes "Jefe") (utf8Bytes "what do ya want for nothing?")) =
      "effcdf6ae5eb2fa2d27416d5f184df9c259a7c79" := by
  decide!

theorem signMessage_shape (U : UnicodeTables) (secret msg : String) :
    (signMessage U secret msg).length = 40 ∧
      ∀ c ∈ (signMessage U secret msg).data, c ∈ "0123456789ABCDEF".data := by
  refine ⟨?_, toUpper_hexEncode_digits U _⟩
  have h := hexEncode_length (hmacSha1 (utf8Bytes secret) (utf8Bytes msg))
  rw [hmacSha1_length] at h
  simp only [signMessage, toUpper, String.length, List.length_map] at h ⊢
  exact h

/-! ## Claims about `DefaultSignature` -/

theorem defaultSignature_of_lookup (U : UnicodeTables) (action : String) (order : List String)
    (params : List (String × String)) (secret : String)
    (hA : signatureOrder.lookup action = some order) :
    DefaultSignature U action params secret =
      .ok (signMessage U secret (canonicalString order (normalizeKeys U params))) := by
  simp [DefaultSignature, hA]

theorem signMessage_ascii (U : UnicodeTables) (secret msg : String) :
    signMessage U secret msg = signMessage UnicodeTables.ascii secret msg := by
  unfold signMessage toUpper
  congr 1
  apply List.map_congr_left
  intro c hc
  simp only [hexEncode, List.mem_flatMap] at hc
  obtain ⟨b, _, hd⟩ := hc
  simp only [List.mem_cons, List.mem_singleton, List.not_mem_nil, or_false] at hd
  have key : ∀ n : Nat, upperRune U (hexDigit (n % 16)) =
      upperRune UnicodeTables.ascii (hexDigit (n % 16)) := by
    intro n
    have h : n % 16 < 16 := Nat.mod_lt _ (by decide)
    generalize n % 16 = r at h
    interval_cases r <;> simp [upperRune, hexDigit, hextable]
  rcases hd with rfl | rfl
  · exact key (b / 16)
  · exact key b

/-- C1: for an action of the order table and a parameter map whose keys are pairwise
distinct ignoring case, `DefaultSignature` succeeds with the upper-cased hex encoding of
HMAC-SHA1 (key: the bytes of the secret) of the delimiter-free concatenation, in table
order, of the values of the table keys present in the lower-cased map; the result has 40
characters, all among `0-9A-F`. -/
theorem defaultSignature_spec (U : UnicodeTables) (action : String) (order : List String)
    (params : List (String × String)) (secret : String)
    (hA : signatureOrder.lookup action = some order)
    (hD : DistinctIgnoringCase U params) :
    DefaultSignature U action params secret =
        .ok (toUpper U (hexEncode
          (hmacSha1 (utf8Bytes secret) (utf8Bytes (specCanonical U order params))))) ∧
      ∀ sig, DefaultSignature U action params secret = .ok sig →
        sig.length = 40 ∧ ∀ c ∈ sig.data, c ∈ "0123456789ABCDEF".data := by
  have h := defaultSignature_of_lookup U action order params secret hA
  rw [canonicalString_normalizeKeys U order params hD] at h
  refine ⟨h, ?_⟩
  intro sig hs
  rw [h] at hs
  injection hs with hs
  subst hs
  exact signMessage_shape U secret _

/-- Witness of C1: `status-invoice` with `token = "T1"`, `invoiceid = "100"` and secret `"S"`
signs the message `"T1100"`. -/
theorem defaultSignature_spec_witness :
    specCanonical UnicodeTables.ascii ["token", "invoiceid"]
        [("token", "T1"), ("invoiceid", "100")] = "T1100" ∧
      DefaultSignature UnicodeTables.ascii "status-invoice"
        [("token", "T1"), ("invoiceid", "100")] "S" =
        .ok (toUpper UnicodeTables.ascii (hexEncode
          (hmacSha1 (utf8Bytes "S") (utf8Bytes "T1100")))) ∧
      toUpper UnicodeTables.ascii (hexEncode (hmacSha1 (utf8Bytes "S") (utf8Bytes "T1100"))) =
        "D692865608AFED87A49D953C04717AF49496C621" :=
  ⟨by decide,
   (defaultSignature_spec UnicodeTables.ascii "status-invoice" ["token", "invoiceid"]
      [("token", "T1"), ("invoiceid", "100")] "S" (by decide) (by decide)).1,
   by decide!⟩

/-- C2: `DefaultSignature` fails exactly when the action is not a key of the order table,
with the unknown-action error and whatever the parameters and the secret; for a key of
the table it returns a signature for every parameter map and every secret, the empty
secret included. -/
theorem defaultSignature_error_iff (U : UnicodeTables) (action : String)
    (params : List (String × String)) (secret : String) :
    ((∃ msg, DefaultSignature U action params secret = .error msg) ↔
        action ∉ signatureOrder.map Prod.fst) ∧
      ((∃ sig, DefaultSignature U action params secret = .ok sig) ↔
        action ∈ signatureOrder.map Prod.fst) ∧
      (action ∉ signatureOrder.map Prod.fst ↔
        DefaultSignature U action params secret =
          .error ("unknown signature action: " ++ action)) ∧
      (∃ msg, DefaultSignature U "no-such-action" params secret = .error msg) ∧
      (∃ sig, DefaultSignature U "status-invoice" params "" = .ok sig) := by
  have hno : List.lookup "no-such-action" signatureOrder = none := by decide
  have hst : List.lookup "status-invoice" signatureOrder = some ["token", "invoiceid"] := by
    decide
  refine ⟨?_, ?_, ?_, ⟨"unknown signature action: no-such-action", ?_⟩,
    ⟨_, defaultSignature_of_lookup U _ _ params "" hst⟩⟩
  · rw [← lookup_eq_none_iff_not_mem]
    cases h : List.lookup action signatureOrder <;> simp [DefaultSignature, h]
  · rw [← not_iff_not, ← lookup_eq_none_iff_not_mem]
    cases h : List.lookup action signatureOrder <;> simp [DefaultSignature, h]
  · rw [← lookup_eq_none_iff_not_mem]
    cases h : List.lookup action signatureOrder <;> simp [DefaultSignature, h]
  · simp only [DefaultSignature, hno]
    rfl

theorem toLower_of_isLowerKey (U : UnicodeTables) (key : String) (h : isLowerKey key = true) :
    toLower U key = key := by
  apply String.ext
  simp only [toLower]
  simp only [isLowerKey, List.all_eq_true, decide_eq_true_eq] at h
  conv_rhs => rw [← List.map_id key.data]
  apply List.map_congr_left
  intro c hc
  obtain ⟨h1, h2⟩ := h c hc
  have h1n : 97 ≤ c.toNat := h1
  have h2n : c.toNat ≤ 122 := h2
  have hlt : c.toNat < 128 := by omega
  simp only [lowerRune, hlt, if_true, Char.toLower, id]
  rw [if_neg]
  intro hh
  have h3 : c.val.toNat ≤ 90 := hh.2
  have h4 : c.toNat = c.val.toNat := rfl
  omega

set_option maxRecDepth 100000 in
theorem signatureOrder_entries :
    ∀ e ∈ signatureOrder, e.2.Nodup ∧ ∀ k ∈ e.2, isLowerKey k = true := by
  decide!

/-- C3: the `signatureOrder` table is the action catalog of the specification: the same 14
actions, each with the listed keys in the listed order; every key is lower-case and no
list holds a key twice. -/
theorem signatureOrder_eq_catalog :
    signatureOrder = specCatalog ∧
      signatureOrder.length = 14 ∧
      (signatureOrder.map Prod.fst).Nodup ∧
      signatureOrder.lookup "get-qr-code" =
        some ["token", "invoiceid", "viewtype", "imagewidth", "imageheight"] ∧
      (∀ e ∈ signatureOrder, e.2.Nodup ∧ ∀ k ∈ e.2, isLowerKey k = true) ∧
      (∀ (U : UnicodeTables), ∀ e ∈ signatureOrder, ∀ k ∈ e.2, toLower U k = k) := by
  refine ⟨by decide, by decide, by decide, by decide, signatureOrder_entries, ?_⟩
  intro U e he k hk
  exact toLower_of_isLowerKey U k ((signatureOrder_entries e he).2 k hk)

theorem order_nodup (action : String) (order : List String)
    (hA : signatureOrder.lookup action = some order) : order.Nodup :=
  (signatureOrder_entries _ (mem_of_lookup_eq_some _ _ _ hA)).1

/-! ### Dependence on the parameter map -/

theorem canonicalString_congr (order : List String) (P Q : StrMap)
    (h : ∀ k ∈ order, (P.get? k).getD "" = (Q.get? k).getD "") :
    canonicalString order P = canonicalString order Q := by
  rw [canonicalString_eq_join, canonicalString_eq_join, join_filterMap_eq_map_getD,
    join_filterMap_eq_map_getD]
  congr 1
  exact List.map_congr_left h

theorem canonicalString_of_values (U : UnicodeTables) (order : List String)
    (p q : List (String × String))
    (hp : DistinctIgnoringCase U p) (hq : DistinctIgnoringCase U q)
    (h : ∀ k ∈ order, valueOrEmpty U p k = valueOrEmpty U q k) :
    canonicalString order (normalizeKeys U p) = canonicalString order (normalizeKeys U q) := by
  apply canonicalString_congr
  intro k hk
  rw [get?_normalizeKeys U p hp, get?_normalizeKeys U q hq]
  exact h k hk

theorem defaultSignature_congr (U : UnicodeTables) (action : String)
    (p q : List (String × String)) (secret : String)
    (h : ∀ order, signatureOrder.lookup action = some order →
      canonicalString order (normalizeKeys U p) = canonicalString order (normalizeKeys U q)) :
    DefaultSignature U action p secret = DefaultSignature U action q secret := by
  unfold DefaultSignature
  cases hA : signatureOrder.lookup action with
  | none => rfl
  | some order => simp only; rw [h order hA]

theorem distinct_of_perm (U : UnicodeTables) {p q : List (String × String)}
    (h : (loweredMap U p).Perm (loweredMap U q)) (hp : DistinctIgnoringCase U p) :
    DistinctIgnoringCase U q := by
  unfold DistinctIgnoringCase at hp ⊢
  rw [← loweredMap_keys] at hp ⊢
  exact (h.map Prod.fst).nodup_iff.mp hp

theorem defaultSignature_of_lowered_perm (U : UnicodeTables) (action : String)
    (p q : List (String × String)) (secret : String)
    (h : (loweredMap U p).Perm (loweredMap U q)) (hp : DistinctIgnoringCase U p) :
    DefaultSignature U action p secret = DefaultSignature U action q secret := by
  apply defaultSignature_congr
  intro order _
  apply canonicalString_of_values U order p q hp (distinct_of_perm U h hp)
  intro k _
  unfold valueOrEmpty
  have hnd : ((loweredMap U p).map Prod.fst).Nodup := by
    rw [loweredMap_keys]; exact hp
  rw [lookup_perm h hnd k]

/-- C4, counterexample: the map with the two entries `"Token" ↦ "A"` and `"token" ↦ "B"`
signs `"B"` when `"Token"` is visited first and `"A"` when `"token"` is visited first. -/
theorem defaultSignature_order_dependent :
    ¬ ∀ (U : UnicodeTables) (action : String) (p q : List (String × String)) (secret : String),
        p.Perm q → (p.map Prod.fst).Nodup →
        DefaultSignature U action p secret = DefaultSignature U action q secret := by
  intro h
  have h1 := h UnicodeTables.ascii "status-invoice" [("Token", "A"), ("token", "B")]
    [("token", "B"), ("Token", "A")] "S" (List.Perm.swap _ _ _) (by decide)
  have h2 : (DefaultSignature UnicodeTables.ascii "status-invoice"
      [("Token", "A"), ("token", "B")] "S").toOption ≠
      (DefaultSignature UnicodeTables.ascii "status-invoice"
      [("token", "B"), ("Token", "A")] "S").toOption := by decide!
  exact h2 (congrArg Except.toOption h1)

/-- C4, amended: for a parameter map whose keys are pairwise distinct ignoring case, the
result of `DefaultSignature` does not depend on the order in which the entries of the map
are visited. -/
theorem defaultSignature_order_independent (U : UnicodeTables) (action : String)
    (p q : List (String × String)) (secret : String)
    (hperm : p.Perm q) (hD : DistinctIgnoringCase U p) :
    DefaultSignature U action p secret = DefaultSignature U action q secret :=
  defaultSignature_of_lowered_perm U action p q secret (hperm.map _) hD

/-- Witness of the amended C4: the two visit orders of `token ↦ "T1"`, `InvoiceId ↦ "100"`. -/
theorem defaultSignature_order_independent_witness :
    DefaultSignature UnicodeTables.ascii "status-invoice"
        [("token", "T1"), ("InvoiceId", "100")] "S" =
      DefaultSignature UnicodeTables.ascii "status-invoice"
        [("InvoiceId", "100"), ("token", "T1")] "S" :=
  defaultSignature_order_independent UnicodeTables.ascii "status-invoice"
    [("token", "T1"), ("InvoiceId", "100")] [("InvoiceId", "100"), ("token", "T1")] "S"
    (List.Perm.swap _ _ _) (by decide)

/-- C5: parameter keys are matched case-insensitively: replacing the key of one entry by a
spelling with the same lower-casing leaves the result of `DefaultSignature` unchanged,
whatever the order in which the two maps are visited. -/
theorem defaultSignature_case_insensitive (U : UnicodeTables) (action : String)
    (l₁ l₂ p q : List (String × String)) (k k' v secret : String)
    (hk : toLower U k = toLower U k')
    (hD : DistinctIgnoringCase U (l₁ ++ (k, v) :: l₂))
    (hp : p.Perm (l₁ ++ (k, v) :: l₂)) (hq : q.Perm (l₁ ++ (k', v) :: l₂)) :
    DefaultSignature U action p secret = DefaultSignature U action q secret := by
  have hlow : loweredMap U (l₁ ++ (k, v) :: l₂) = loweredMap U (l₁ ++ (k', v) :: l₂) := by
    simp [loweredMap, hk]
  have hpq : (loweredMap U p).Perm (loweredMap U q) := by
    have h1 : (loweredMap U p).Perm (loweredMap U (l₁ ++ (k, v) :: l₂)) := hp.map _
    have h2 : (loweredMap U q).Perm (loweredMap U (l₁ ++ (k', v) :: l₂)) := hq.map _
    rw [hlow] at h1
    exact h1.trans h2.symm
  have hDp : DistinctIgnoringCase U p :=
    distinct_of_perm U (show (loweredMap U (l₁ ++ (k, v) :: l₂)).Perm (loweredMap U p) from
      (hp.map _).symm) hD
  exact defaultSignature_of_lowered_perm U action p q secret hpq hDp

/-- Witness of C5: `InvoiceId` respelled `INVOICEID`. -/
theorem defaultSignature_case_insensitive_witness :
    DefaultSignature UnicodeTables.ascii "status-invoice"
        [("Token", "T1"), ("InvoiceId", "100")] "S" =
      DefaultSignature UnicodeTables.ascii "status-invoice"
        [("INVOICEID", "100"), ("Token", "T1")] "S" :=
  defaultSignature_case_insensitive UnicodeTables.ascii "status-invoice"
    [("Token", "T1")] [] [("Token", "T1"), ("InvoiceId", "100")]
    [("INVOICEID", "100"), ("Token", "T1")] "InvoiceId" "INVOICEID" "100" "S"
    (by decide) (by decide) (List.Perm.refl _) (List.Perm.swap _ _ _)

/-- C6: the signature depends only on the values of the keys of the action's order list,
an absent key counting as the empty string: two parameter maps (keys pairwise distinct
ignoring case) that give every key of the list the same value-or-empty are signed alike. -/
theorem defaultSignature_depends_on_table_values (U : UnicodeTables) (action : String)
    (order : List String) (p q : List (String × String)) (secret : String)
    (hA : signatureOrder.lookup action = some order)
    (hp : DistinctIgnoringCase U p) (hq : DistinctIgnoringCase U q)
    (h : ∀ k ∈ order, valueOrEmpty U p k = valueOrEmpty U q k) :
    DefaultSignature U action p secret = DefaultSignature U action q secret := by
  apply defaultSignature_congr
  intro order' hA'
  rw [hA] at hA'
  injection hA' with hA'
  subst hA'
  exact canonicalString_of_values U order p q hp hq h

/-- Witness of C6: for `add-invoice`, an `EmailNotification` entry (not a table key) and an
`Info` entry with the empty value change nothing. -/
theorem defaultSignature_depends_on_table_values_witness :
    DefaultSignature UnicodeTables.ascii "add-invoice"
        [("Token", "t"), ("Amount", "1"), ("EmailNotification", "a@b"), ("Info", "")] "S" =
      DefaultSignature UnicodeTables.ascii "add-invoice"
        [("Token", "t"), ("Amount", "1")] "S" :=
  defaultSignature_depends_on_table_values UnicodeTables.ascii "add-invoice"
    ["token", "accountno", "amount", "currency", "expiration", "info", "surname",
     "firstname", "patronymic", "city", "street", "house", "building", "apartment",
     "isnameeditable", "isaddresseditable", "isamounteditable"]
    [("Token", "t"), ("Amount", "1"), ("EmailNotification", "a@b"), ("Info", "")]
    [("Token", "t"), ("Amount", "1")] "S" (by decide) (by decide) (by decide) (by decide)

theorem canonicalString_ne (order : List String) (P Q : StrMap) (k v v' : String)
    (hk : k ∈ order) (hnd : order.Nodup)
    (hP : P.get? k = some v) (hQ : Q.get? k = some v') (hv : v ≠ v')
    (hrest : ∀ k', k' ≠ k → P.get? k' = Q.get? k') :
    canonicalString order P ≠ canonicalString order Q := by
  obtain ⟨A, B, rfl⟩ := List.append_of_mem hk
  have hkA : k ∉ A := fun hmem => by
    have := List.nodup_append.mp hnd
    exact this.2.2 hmem (List.mem_cons_self _ _)
  have hkB : k ∉ B := by
    have := (List.nodup_append.mp hnd).2.1
    exact (List.nodup_cons.mp this).1
  have hA : A.filterMap P.get? = A.filterMap Q.get? :=
    List.filterMap_congr fun x hx => hrest x (fun h => hkA (h ▸ hx))
  have hB : B.filterMap P.get? = B.filterMap Q.get? :=
    List.filterMap_congr fun x hx => hrest x (fun h => hkB (h ▸ hx))
  rw [canonicalString_eq_join, canonicalString_eq_join]
  simp only [List.filterMap_append, List.filterMap_cons, hP, hQ, join_append, join_cons, hA, hB]
  intro h
  exact hv (string_append_right_cancel (string_append_left_cancel h))

theorem normalizeKeys_get?_of_lower (U : UnicodeTables) (p : List (String × String))
    (hnd : (p.map Prod.fst).Nodup) (hlow : ∀ e ∈ p, toLower U e.1 = e.1) (k : String) :
    (normalizeKeys U p).get? k = p.lookup k := by
  have hmap : loweredMap U p = p := by
    unfold loweredMap
    conv_rhs => rw [← List.map_id p]
    apply List.map_congr_left
    intro e he
    rw [hlow e he]
    rfl
  have hD : DistinctIgnoringCase U p := by
    unfold DistinctIgnoringCase
    rw [← loweredMap_keys, hmap]
    exact hnd
  rw [get?_normalizeKeys U p hD, hmap]

/-- C7: changing the value of a single signed field changes what is signed: for a known
action, a key `k` of its order list, and two parameter maps with lower-case keys that both
contain `k`, give it different values and agree on every other key, `DefaultSignature`
feeds different canonical strings to HMAC-SHA1. -/
theorem defaultSignature_single_field_change (U : UnicodeTables) (action : String)
    (order : List String) (p q : List (String × String)) (k v v' secret : String)
    (hA : signatureOrder.lookup action = some order) (hk : k ∈ order)
    (hp : (p.map Prod.fst).Nodup) (hq : (q.map Prod.fst).Nodup)
    (hpl : ∀ e ∈ p, toLower U e.1 = e.1) (hql : ∀ e ∈ q, toLower U e.1 = e.1)
    (hpk : p.lookup k = some v) (hqk : q.lookup k = some v') (hv : v ≠ v')
    (hrest : ∀ k', k' ≠ k → p.lookup k' = q.lookup k') :
    ∃ m m', m ≠ m' ∧
      DefaultSignature U action p secret =
        .ok (toUpper U (hexEncode (hmacSha1 (utf8Bytes secret) (utf8Bytes m)))) ∧
      DefaultSignature U action q secret =
        .ok (toUpper U (hexEncode (hmacSha1 (utf8Bytes secret) (utf8Bytes m')))) ∧
      m = canonicalString order (normalizeKeys U p) ∧
      m' = canonicalString order (normalizeKeys U q) := by
  refine ⟨_, _, ?_, defaultSignature_of_lookup U action order p secret hA,
    defaultSignature_of_lookup U action order q secret hA, rfl, rfl⟩
  apply canonicalString_ne order _ _ k v v' hk (order_nodup action order hA)
  · rw [normalizeKeys_get?_of_lower U p hp hpl]; exact hpk
  · rw [normalizeKeys_get?_of_lower U q hq hql]; exact hqk
  · exact hv
  · intro k' hk'
    rw [normalizeKeys_get?_of_lower U p hp hpl, normalizeKeys_get?_of_lower U q hq hql]
    exact hrest k' hk'

/-- Witness of C7: `status-invoice` with `invoiceid = "1"` and with `invoiceid = "2"`. -/
theorem defaultSignature_single_field_change_witness :
    ∃ m m', m ≠ m' ∧
      DefaultSignature UnicodeTables.ascii "status-invoice"
          [("token", "T"), ("invoiceid", "1")] "S" =
        .ok (toUpper UnicodeTables.ascii (hexEncode (hmacSha1 (utf8Bytes "S") (utf8Bytes m)))) ∧
      DefaultSignature UnicodeTables.ascii "status-invoice"
          [("token", "T"), ("invoiceid", "2")] "S" =
        .ok (toUpper UnicodeTables.ascii (hexEncode (hmacSha1 (utf8Bytes "S") (utf8Bytes m')))) ∧
      m = canonicalString ["token", "invoiceid"]
        (normalizeKeys UnicodeTables.ascii [("token", "T"), ("invoiceid", "1")]) ∧
      m' = canonicalString ["token", "invoiceid"]
        (normalizeKeys UnicodeTables.ascii [("token", "T"), ("invoiceid", "2")]) :=
  defaultSignature_single_field_change UnicodeTables.ascii "status-invoice"
    ["token", "invoiceid"] [("token", "T"), ("invoiceid", "1")]
    [("token", "T"), ("invoiceid", "2")] "invoiceid" "1" "2" "S"
    (by decide) (by decide) (by decide) (by decide) (by decide) (by decide)
    (by decide) (by decide) (by decide)
    (fun k' hk' => by
      have hne : (k' == "invoiceid") = false := by simpa using hk'
      simp [List.lookup, hne])

/-- C8: the delimiter-free concatenation is ambiguous: for `add-invoice`, with the same
token, `amount = "1"`, `currency = "23"` and `amount = "12"`, `currency = "3"` differ in
two signed fields, yet both sign the message `token ++ "123"` and obtain the same
signature, for every secret. -/
theorem defaultSignature_concatenation_ambiguous (U : UnicodeTables) (token secret : String) :
    List.lookup "amount" [("token", token), ("amount", "1"), ("currency", "23")] ≠
        List.lookup "amount" [("token", token), ("amount", "12"), ("currency", "3")] ∧
      List.lookup "currency" [("token", token), ("amount", "1"), ("currency", "23")] ≠
        List.lookup "currency" [("token", token), ("amount", "12"), ("currency", "3")] ∧
      DefaultSignature U "add-invoice"
          [("token", token), ("amount", "1"), ("currency", "23")] secret =
        .ok (signMessage U secret (token ++ "123")) ∧
      DefaultSignature U "add-invoice"
          [("token", token), ("amount", "12"), ("currency", "3")] secret =
        .ok (signMessage U secret (token ++ "123")) ∧
      DefaultSignature U "add-invoice"
          [("token", token), ("amount", "1"), ("currency", "23")] secret =
        DefaultSignature U "add-invoice"
          [("token", token), ("amount", "12"), ("currency", "3")] secret := by
  have hp : normalizeKeys U [("token", token), ("amount", "1"), ("currency", "23")] =
      [("currency", "23"), ("amount", "1"), ("token", token)] := rfl
  have hq : normalizeKeys U [("token", token), ("amount", "12"), ("currency", "3")] =
      [("currency", "3"), ("amount", "12"), ("token", token)] := rfl
  have hA : signatureOrder.lookup "add-invoice" = some
      ["token", "accountno", "amount", "currency", "expiration", "info", "surname",
       "firstname", "patronymic", "city", "street", "house", "building", "apartment",
       "isnameeditable", "isaddresseditable", "isamounteditable"] := by decide
  have e1 : ("1" : String) ++ "23" = "123" := by decide
  have e2 : ("12" : String) ++ "3" = "123" := by decide
  have h1 := defaultSignature_of_lookup U _ _
    [("token", token), ("amount", "1"), ("currency", "23")] secret hA
  have h2 := defaultSignature_of_lookup U _ _
    [("token", token), ("amount", "12"), ("currency", "3")] secret hA
  rw [hp] at h1
  rw [hq] at h2
  have c1 : canonicalString
      ["token", "accountno", "amount", "currency", "expiration", "info", "surname",
       "firstname", "patronymic", "city", "street", "house", "building", "apartment",
       "isnameeditable", "isaddresseditable", "isamounteditable"]
      [("currency", "23"), ("amount", "1"), ("token", token)] = token ++ "123" := by
    rw [← e1, ← String.append_assoc, ← String.empty_append token]
    rfl
  have c2 : canonicalString
      ["token", "accountno", "amount", "currency", "expiration", "info", "surname",
       "firstname", "patronymic", "city", "street", "house", "building", "apartment",
       "isnameeditable", "isaddresseditable", "isamounteditable"]
      [("currency", "3"), ("amount", "12"), ("token", token)] = token ++ "123" := by
    rw [← e2, ← String.append_assoc, ← String.empty_append token]
    rfl
  rw [c1] at h1
  rw [c2] at h2
  refine ⟨by simp [List.lookup], by simp [List.lookup], h1, h2, h1.trans h2.symm⟩

/-! ## Claims about `parseAPIError` -/

theorem findField_envelope_Error (U : UnicodeTables) :
    findField U envelopeFields "Error" = some "Error" := rfl

theorem findField_envelope_ErrorCode (U : UnicodeTables) :
    findField U envelopeFields "ErrorCode" = some "ErrorCode" := rfl

theorem findField_envelope_ErrorMessage (U : UnicodeTables) :
    findField U envelopeFields "ErrorMessage" = some "ErrorMessage" := rfl

theorem storeMember_ErrorMessage (U : UnicodeTables) (env : Envelope) (m : String) :
    Envelope.storeMember U env ("ErrorMessage", .string m) =
      some { env with ErrorMessage := m } := by
  simp [Envelope.storeMember, findField_envelope_ErrorMessage, storeString]

theorem storeMember_ErrorCode_number (U : UnicodeTables) (env : Envelope) (n : String) :
    Envelope.storeMember U env ("ErrorCode", .number n) =
      some { env with ErrorCode := n } := by
  simp [Envelope.storeMember, findField_envelope_ErrorCode, storeNumber]

theorem storeMember_ErrorCode_string (U : UnicodeTables) (env : Envelope) (n : String)
    (h : isValidNumber n = true) :
    Envelope.storeMember U env ("ErrorCode", .string n) =
      some { env with ErrorCode := n } := by
  simp [Envelope.storeMember, findField_envelope_ErrorCode, storeNumber, h]

theorem foldlM_skip (U : UnicodeTables) (members : List (String × JSON)) (env : Envelope)
    (h : ∀ kv ∈ members, findField U envelopeFields kv.1 = none) :
    members.foldlM (Envelope.storeMember U) env = some env := by
  induction members with
  | nil => rfl
  | cons kv rest ih =>
    have h1 : Envelope.storeMember U env kv = some env := by
      simp [Envelope.storeMember, h kv (List.mem_cons_self _ _)]
    simp only [List.foldlM, h1]
    exact ih fun kv' hkv => h kv' (List.mem_cons_of_mem _ hkv)

/-- The decision policy of `parseAPIError`, in order: no error when the body does not
decode as the envelope; otherwise the nested `Error` object when there is one, whatever
the top-level `ErrorCode` and `ErrorMessage`; otherwise, when the top-level `ErrorMessage`
is not empty, an error with that message and with the code `intFromNumber` makes of the
top-level `ErrorCode`, the same for the number `42` and the string `"42"`, and 0 when the
field is missing; otherwise no error, as for a body with no envelope field.  The code
is here what `intFromNumber` returns, which is the integer the field denotes only within
the signed 64-bit range. -/
theorem parseAPIError_policy (U : UnicodeTables) :
    (∀ data, decodeJSON U data = none → parseAPIError U data = none) ∧
    (∀ data envelope e, decodeJSON U data = some envelope → envelope.Error = some e →
      parseAPIError U data = some e) ∧
    (∀ data envelope, decodeJSON U data = some envelope → envelope.Error = none →
      envelope.ErrorMessage ≠ "" →
      parseAPIError U data = some { ErrorCode := intFromNumber envelope.ErrorCode,
                                    ErrorMessage := envelope.ErrorMessage }) ∧
    (∀ data envelope, decodeJSON U data = some envelope → envelope.Error = none →
      envelope.ErrorMessage = "" → parseAPIError U data = none) ∧
    (∀ (members : List (String × JSON)) (e : APIError) (code message : JSON),
      members.foldlM (APIError.storeMember U) {} = some e →
      (storeNumber "" code).isSome = true → (storeString "" message).isSome = true →
      parseAPIError U (some (.object
        [("Error", .object members), ("ErrorCode", code), ("ErrorMessage", message)])) =
        some e) ∧
    (∀ n message : String, isValidNumber n = true → message ≠ "" →
      parseAPIError U (some (.object
        [("ErrorCode", .number n), ("ErrorMessage", .string message)])) =
        some { ErrorCode := intFromNumber n, ErrorMessage := message } ∧
      parseAPIError U (some (.object
        [("ErrorCode", .string n), ("ErrorMessage", .string message)])) =
        some { ErrorCode := intFromNumber n, ErrorMessage := message }) ∧
    (∀ message : String, message ≠ "" →
      parseAPIError U (some (.object
        [("ErrorCode", .number "42"), ("ErrorMessage", .string message)])) =
        some { ErrorCode := 42, ErrorMessage := message } ∧
      parseAPIError U (some (.object
        [("ErrorCode", .string "42"), ("ErrorMessage", .string message)])) =
        some { ErrorCode := 42, ErrorMessage := message } ∧
      parseAPIError U (some (.object [("ErrorMessage", .string message)])) =
        some { ErrorCode := 0, ErrorMessage := message }) ∧
    (∀ members : List (String × JSON),
      (∀ kv ∈ members, findField U envelopeFields kv.1 = none) →
      parseAPIError U (some (.object members)) = none) := by
  have hnum : ∀ n message : String, message ≠ "" →
      parseAPIError U (some (.object
        [("ErrorCode", .number n), ("ErrorMessage", .string message)])) =
        some { ErrorCode := intFromNumber n, ErrorMessage := message } := by
    intro n message hm
    simp [parseAPIError, decodeJSON, List.foldlM, storeMember_ErrorCode_number,
      storeMember_ErrorMessage, hm]
  have hstr : ∀ n message : String, isValidNumber n = true → message ≠ "" →
      parseAPIError U (some (.object
        [("ErrorCode", .string n), ("ErrorMessage", .string message)])) =
        some { ErrorCode := intFromNumber n, ErrorMessage := message } := by
    intro n message hn hm
    simp [parseAPIError, decodeJSON, List.foldlM, storeMember_ErrorCode_string, hn,
      storeMember_ErrorMessage, hm]
  have h42 : intFromNumber "42" = 42 := by decide
  refine ⟨?_, ?_, ?_, ?_, ?_, ?_, ?_, ?_⟩
  · intro data h
    simp [parseAPIError, h]
  · intro data envelope e h he
    simp [parseAPIError, h, he]
  · intro data envelope h he hm
    simp [parseAPIError, h, he, hm]
  · intro data envelope h he hm
    simp [parseAPIError, h, he, hm]
  · intro members e code message hmem hcode hmsg
    obtain ⟨c, hc⟩ := Option.isSome_iff_exists.mp hcode
    obtain ⟨m, hm⟩ := Option.isSome_iff_exists.mp hmsg
    simp [parseAPIError, decodeJSON, List.foldlM, Envelope.storeMember,
      findField_envelope_Error, findField_envelope_ErrorCode, findField_envelope_ErrorMessage,
      storeAPIError, hmem, hc, hm]
  · intro n message hn hm
    exact ⟨hnum n message hm, hstr n message hn hm⟩
  · intro message hm
    refine ⟨?_, ?_, ?_⟩
    · rw [hnum "42" message hm, h42]
    · rw [hstr "42" message (by decide) hm, h42]
    · simp [parseAPIError, decodeJSON, List.foldlM, storeMember_ErrorMessage, hm,
        intFromNumber]
  · intro members h
    simp [parseAPIError, decodeJSON, foldlM_skip U members _ h]

/-- The policy at concrete bodies: `{"ErrorCode": "42", "ErrorMessage": "boom"}` decodes as
the envelope, has no nested error and a non-empty message. -/
theorem parseAPIError_policy_witness :
    parseAPIError UnicodeTables.ascii (some (.object
        [("ErrorCode", .string "42"), ("ErrorMessage", .string "boom")])) =
      some { ErrorCode := intFromNumber "42", ErrorMessage := "boom" } ∧
    parseAPIError UnicodeTables.ascii (some (.object
        [("ErrorCode", .number "42"), ("ErrorMessage", .string "boom")])) =
      some { ErrorCode := 42, ErrorMessage := "boom" } ∧
    parseAPIError UnicodeTables.ascii (some (.object
        [("Error", .object [("Code", .number "5"), ("Msg", .string "bad")]),
         ("ErrorCode", .number "7"), ("ErrorMessage", .string "boom")])) =
      some { Code := 5, Msg := "bad" } ∧
    parseAPIError UnicodeTables.ascii (some (.object
        [("InvoiceNo", .number "123"), ("InvoiceUrl", .string "u")])) = none :=
  ⟨(parseAPIError_policy UnicodeTables.ascii).2.2.1
      (some (.object [("ErrorCode", .string "42"), ("ErrorMessage", .string "boom")]))
      { ErrorCode := "42", ErrorMessage := "boom" } (by decide) (by decide) (by decide),
   ((parseAPIError_policy UnicodeTables.ascii).2.2.2.2.2.2.1 "boom" (by decide)).1,
   (parseAPIError_policy UnicodeTables.ascii).2.2.2.2.1
      [("Code", .number "5"), ("Msg", .string "bad")] { Code := 5, Msg := "bad" }
      (.number "7") (.string "boom") (by decide) (by decide) (by decide),
   (parseAPIError_policy UnicodeTables.ascii).2.2.2.2.2.2.2
      [("InvoiceNo", .number "123"), ("InvoiceUrl", .string "u")] (by decide)⟩

/-- C10, evaluation at the failing inputs: a top-level `ErrorCode` holding the string
`"abc"`, and a nested `Error` object whose `Code` is the numeric string `"5"` or the
fraction `1.5`, make the decoding fail, so `parseAPIError` reports no error although the
body carries a message or a nested error object; with the number `5` the same bodies
yield the error. -/
theorem parseAPIError_malformed_number (U : UnicodeTables) :
    parseAPIError U (some (.object
        [("ErrorCode", .string "abc"), ("ErrorMessage", .string "boom")])) = none ∧
    parseAPIError U (some (.object
        [("Error", .object [("Code", .string "5"), ("Msg", .string "bad")])])) = none ∧
    parseAPIError U (some (.object
        [("Error", .object [("Code", .number "1.5"), ("Msg", .string "bad")])])) = none ∧
    parseAPIError U (some (.object
        [("ErrorCode", .number "5"), ("ErrorMessage", .string "boom")])) =
      some { ErrorCode := 5, ErrorMessage := "boom" } ∧
    parseAPIError U (some (.object
        [("Error", .object [("Code", .number "5"), ("Msg", .string "bad")])])) =
      some { Code := 5, Msg := "bad" } :=
  ⟨rfl, rfl, rfl, rfl, rfl⟩

/-! ## Claims about `Client.do` and `applySignature` -/

/-- C11: the response handling of `Client.do` classifies a received status and body: an
API error found by `parseAPIError` is returned with `HTTPStatus` set to the status,
whatever the status; otherwise a status of 400 or more gives an error carrying the status
and the body text (trimmed of surrounding white space); otherwise the call succeeds with
the body unchanged.  So the call succeeds exactly when the body holds no error envelope
and the status is below 400. -/
theorem doResponse_classification (L : Library) (StatusCode : Int) (data : String) :
    (∀ e, parseAPIError L.tables (L.readValue data) = some e →
      Client.doResponse L StatusCode data =
        .error (.api { e with HTTPStatus := StatusCode })) ∧
    (parseAPIError L.tables (L.readValue data) = none → StatusCode ≥ 400 →
      Client.doResponse L StatusCode data =
        .error (.other
          ("unexpected status " ++ toString StatusCode ++ ": " ++ trimSpace L data))) ∧
    (parseAPIError L.tables (L.readValue data) = none → StatusCode < 400 →
      Client.doResponse L StatusCode data = .ok data) ∧
    ((∃ body, Client.doResponse L StatusCode data = .ok body) ↔
      (parseAPIError L.tables (L.readValue data) = none ∧ StatusCode < 400)) := by
  refine ⟨?_, ?_, ?_, ?_⟩
  · intro e h
    simp [Client.doResponse, h]
  · intro h hs
    simp [Client.doResponse, h, hs]
  · intro h hs
    have : ¬ StatusCode ≥ 400 := not_le.mpr hs
    simp [Client.doResponse, h, this]
  · cases h : parseAPIError L.tables (L.readValue data) with
    | some e => simp [Client.doResponse, h]
    | none =>
      by_cases hs : StatusCode ≥ 400
      · have : ¬ StatusCode < 400 := not_lt.mpr hs
        simp [Client.doResponse, h, hs, this]
      · have : StatusCode < 400 := not_le.mp hs
        simp [Client.doResponse, h, hs, this]

/-- Witness of C11: status 200 with an error envelope, status 500 with a body that is not
JSON, and status 200 with a success body. -/
theorem doResponse_classification_witness :
    Client.doResponse ⟨UnicodeTables.ascii,
        fun _ => some (.object [("ErrorMessage", .string "boom")]), fun _ => false⟩ 200 "e" =
      .error (.api { ErrorMessage := "boom", HTTPStatus := 200 }) ∧
    Client.doResponse ⟨UnicodeTables.ascii, fun _ => none, fun _ => false⟩ 500 " oops\n" =
      .error (.other "unexpected status 500: oops") ∧
    Client.doResponse ⟨UnicodeTables.ascii,
        fun _ => some (.object [("InvoiceNo", .number "7")]), fun _ => false⟩ 200 "ok" =
      .ok "ok" :=
  ⟨(doResponse_classification ⟨UnicodeTables.ascii,
        fun _ => some (.object [("ErrorMessage", .string "boom")]), fun _ => false⟩
      200 "e").1 { ErrorMessage := "boom" } (by decide),
   (doResponse_classification ⟨UnicodeTables.ascii, fun _ => none, fun _ => false⟩
      500 " oops\n").2.1 (by decide) (by decide),
   (doResponse_classification ⟨UnicodeTables.ascii,
        fun _ => some (.object [("InvoiceNo", .number "7")]), fun _ => false⟩
      200 "ok").2.2.1 (by decide) (by decide)⟩

theorem valueEntries_lookup_set (v : ValueEntries) (key value k : String) :
    List.lookup k (v.Set key value) = if k = key then some [value] else List.lookup k v := by
  unfold ValueEntries.Set
  by_cases h : k = key
  · subst h; simp [List.lookup]
  · have hne : (k == key) = false := by simpa using h
    simp only [List.lookup, hne, h, if_false]
    induction v with
    | nil => rfl
    | cons e v ih =>
      obtain ⟨a, b⟩ := e
      by_cases hak : a = key
      · subst hak
        simp [List.lookup, hne, ih]
      · rw [List.filter_cons_of_pos (by simpa using hak)]
        simp only [List.lookup]
        rw [ih]

/-- C12: `applySignature` attaches the signature in exactly one place and touches nothing
else.  The map arguments are those of the calls in `client.go`: the map chosen by
`inQuery` is not nil and the other one is nil.  With signing on and a `SignatureFunc`
returning `sig`, it sets `query["signature"]` to `sig` when `inQuery` is true and
`form["Signature"]` to `sig` otherwise, every other entry of that map and the other map
staying as they were.  An error of the `SignatureFunc`, or a nil `SignatureFunc`, is
returned with both maps unchanged.  With signing off it succeeds with both maps
unchanged, whatever the `SignatureFunc`.  Among the calls in `client.go`, exactly those
for `add-web-invoice` and `add-webcard-invoice` use the form placement. -/
theorem applySignature_frame (c : Client) (action : String) (params : List (String × String))
    (query form : Values) (inQuery : Bool) :
    (c.UseSignature = false → c.Secret = "" →
      c.applySignature action params query form inQuery = ⟨none, query, form⟩) ∧
    ((c.UseSignature = true ∨ c.Secret ≠ "") →
      (c.SignatureFunc = none →
        c.applySignature action params query form inQuery =
          ⟨some "signature function is not configured", query, form⟩) ∧
      (∀ f err, c.SignatureFunc = some f → f action params c.Secret = .error err →
        c.applySignature action params query form inQuery = ⟨some err, query, form⟩) ∧
      (∀ f sig, c.SignatureFunc = some f → f action params c.Secret = .ok sig →
        (∀ q, inQuery = true → query = some q → form = none →
          (c.applySignature action params query form inQuery).err = none ∧
          (c.applySignature action params query form inQuery).form = none ∧
          (c.applySignature action params query form inQuery).query.get? "signature" =
            some [sig] ∧
          ∀ k, k ≠ "signature" →
            (c.applySignature action params query form inQuery).query.get? k =
              query.get? k) ∧
        (∀ fm, inQuery = false → query = none → form = some fm →
          (c.applySignature action params query form inQuery).err = none ∧
          (c.applySignature action params query form inQuery).query = none ∧
          (c.applySignature action params query form inQuery).form.get? "Signature" =
            some [sig] ∧
          ∀ k, k ≠ "Signature" →
            (c.applySignature action params query form inQuery).form.get? k =
              form.get? k))) ∧
    (∀ call ∈ applySignatureCalls,
      call.2.2 = false ↔ call.2.1 ∈ ["add-web-invoice", "add-webcard-invoice"]) := by
  refine ⟨?_, ?_, by decide⟩
  · intro hu hs
    simp [Client.applySignature, hu, hs]
  · intro hon
    have hgate : (!c.UseSignature && c.Secret == "") = false := by
      rcases hon with h | h
      · simp [h]
      · have : (c.Secret == "") = false := by simpa using h
        simp [this]
    refine ⟨?_, ?_, ?_⟩
    · intro hf
      simp [Client.applySignature, hgate, hf]
    · intro f err hf he
      simp [Client.applySignature, hgate, hf, he]
    · intro f sig hf hsig
      refine ⟨?_, ?_⟩
      · intro q hq hquery hform
        subst hq hquery hform
        simp only [Client.applySignature, hgate, hf, hsig, Values.get?]
        refine ⟨by simp, by simp, ?_, ?_⟩
        · simp [valueEntries_lookup_set]
        · intro k hk
          simp [valueEntries_lookup_set, hk]
      · intro fm hq hquery hform
        subst hq hquery hform
        simp only [Client.applySignature, hgate, hf, hsig, Values.get?]
        refine ⟨by simp, by simp, ?_, ?_⟩
        · simp [valueEntries_lookup_set]
        · intro k hk
          simp [valueEntries_lookup_set, hk]

/-- Witness of C12: `GetInvoiceStatus` signs into a query that holds the token, and
`CreateWebInvoice` into its form; with signing off nothing changes. -/
theorem applySignature_frame_witness :
    (Client.applySignature ⟨"", "T1", "S", true, some (DefaultSignature UnicodeTables.ascii)⟩
        "status-invoice" [("Token", "T1"), ("InvoiceId", "100")]
        (some [("token", ["T1"])]) none true).query.get? "signature" =
      some [signMessage UnicodeTables.ascii "S" "T1100"] ∧
    (Client.applySignature ⟨"", "T1", "S", true, some (DefaultSignature UnicodeTables.ascii)⟩
        "status-invoice" [("Token", "T1"), ("InvoiceId", "100")]
        (some [("token", ["T1"])]) none true).query.get? "token" = some ["T1"] ∧
    (Client.applySignature ⟨"", "T1", "S", true, some (DefaultSignature UnicodeTables.ascii)⟩
        "add-web-invoice" [("Token", "T1"), ("ServiceId", "9")]
        none (some [("ServiceId", ["9"])]) false).form.get? "Signature" =
      some [signMessage UnicodeTables.ascii "S" "T19"] ∧
    Client.applySignature ⟨"", "T1", "", false, none⟩
        "status-invoice" [("Token", "T1"), ("InvoiceId", "100")]
        (some [("token", ["T1"])]) none true = ⟨none, some [("token", ["T1"])], none⟩ :=
  ⟨((((applySignature_frame
        ⟨"", "T1", "S", true, some (DefaultSignature UnicodeTables.ascii)⟩
        "status-invoice" [("Token", "T1"), ("InvoiceId", "100")]
        (some [("token", ["T1"])]) none true).2.1 (Or.inl rfl)).2.2
        (DefaultSignature UnicodeTables.ascii) (signMessage UnicodeTables.ascii "S" "T1100")
        rfl rfl).1 [("token", ["T1"])] rfl rfl rfl).2.2.1,
   ((((applySignature_frame
        ⟨"", "T1", "S", true, some (DefaultSignature UnicodeTables.ascii)⟩
        "status-invoice" [("Token", "T1"), ("InvoiceId", "100")]
        (some [("token", ["T1"])]) none true).2.1 (Or.inl rfl)).2.2
        (DefaultSignature UnicodeTables.ascii) (signMessage UnicodeTables.ascii "S" "T1100")
        rfl rfl).1 [("token", ["T1"])] rfl rfl rfl).2.2.2 "token" (by decide),
   ((((applySignature_frame
        ⟨"", "T1", "S", true, some (DefaultSignature UnicodeTables.ascii)⟩
        "add-web-invoice" [("Token", "T1"), ("ServiceId", "9")]
        none (some [("ServiceId", ["9"])]) false).2.1 (Or.inl rfl)).2.2
        (DefaultSignature UnicodeTables.ascii) (signMessage UnicodeTables.ascii "S" "T19")
        rfl rfl).2 [("ServiceId", ["9"])] rfl rfl rfl).2.2.1,
   (applySignature_frame ⟨"", "T1", "", false, none⟩
        "status-invoice" [("Token", "T1"), ("InvoiceId", "100")]
        (some [("token", ["T1"])]) none true).1 rfl rfl⟩

/-- C13: every action the Client methods pass to `applySignature` is a key of
`signatureOrder`: the 14 calls name the 14 listed actions, each is in the table, so
`DefaultSignature` returns a signature for it whatever the parameters and the secret,
and `applySignature` with `DefaultSignature` returns no error. -/
theorem dispatched_actions_in_table :
    applySignatureCalls.map (fun call => call.2.1) =
      ["get-list-invoices", "add-invoice", "get-details-invoice", "status-invoice",
       "cancel-invoice", "get-list-payments", "get-details-payment", "get-qr-code",
       "add-card-invoice", "card-invoice-form", "status-card-invoice",
       "reverse-card-invoice", "add-web-invoice", "add-webcard-invoice"] ∧
    (∀ call ∈ applySignatureCalls, call.2.1 ∈ signatureOrder.map Prod.fst) ∧
    (∀ call ∈ applySignatureCalls, ∀ (U : UnicodeTables) (params : List (String × String))
        (secret : String),
      (∃ sig, DefaultSignature U call.2.1 params secret = .ok sig) ∧
      ∀ (base token : String) (useSignature : Bool) (query form : Values),
        (Client.applySignature ⟨base, token, secret, useSignature, some (DefaultSignature U)⟩
          call.2.1 params query form call.2.2).err = none) := by
  have hmem : ∀ call ∈ applySignatureCalls, call.2.1 ∈ signatureOrder.map Prod.fst := by
    decide
  refine ⟨by decide, hmem, ?_⟩
  intro call hcall U params secret
  have hne : List.lookup call.2.1 signatureOrder ≠ none := by
    rw [Ne, lookup_eq_none_iff_not_mem]
    exact not_not.mpr (hmem call hcall)
  obtain ⟨order, horder⟩ := Option.ne_none_iff_exists'.mp hne
  have hsig := defaultSignature_of_lookup U call.2.1 order params secret horder
  refine ⟨⟨_, hsig⟩, ?_⟩
  intro base token useSignature query form
  simp only [Client.applySignature, hsig]
  split
  · rfl
  · cases call.2.2 <;> cases query <;> cases form <;> rfl

/-! ## Claims about `intFromNumber`, `check` and `APIError.Error` -/

theorem foldl_digit_ge (cs : List Char) (n : Nat) :
    n ≤ cs.foldl (fun acc c => acc * 10 + (c.toNat - '0'.toNat)) n := by
  induction cs generalizing n with
  | nil => exact Nat.le_refl _
  | cons c cs ih =>
    simp only [List.foldl_cons]
    exact Nat.le_trans (by omega) (ih _)

theorem parseUintLoop_digits (cs : List Char) (n : Nat) (hn : n ≤ 2 ^ 64 - 1)
    (h : cs.all (fun c => decide ('0' ≤ c ∧ c ≤ '9')) = true) :
    parseUintLoop cs n =
      if cs.foldl (fun acc c => acc * 10 + (c.toNat - '0'.toNat)) n ≤ 2 ^ 64 - 1 then
        (cs.foldl (fun acc c => acc * 10 + (c.toNat - '0'.toNat)) n, none)
      else (2 ^ 64 - 1, some .outOfRange) := by
  induction cs generalizing n with
  | nil => simp only [parseUintLoop, List.foldl_nil]; rw [if_pos hn]
  | cons c cs ih =>
    simp only [List.all_cons, Bool.and_eq_true, decide_eq_true_eq] at h
    have hge := foldl_digit_ge cs (n * 10 + (c.toNat - '0'.toNat))
    have e1 : (2 ^ 64 - 1) / 10 + 1 = 1844674407370955162 := by norm_num
    have e2 : (2 : Nat) ^ 64 - 1 = 18446744073709551615 := by norm_num
    rw [parseUintLoop, if_pos h.1, List.foldl_cons]
    by_cases h1 : n ≥ (2 ^ 64 - 1) / 10 + 1
    · rw [if_pos h1, if_neg]
      rw [e1] at h1
      rw [e2]
      omega
    · rw [if_neg h1]
      by_cases h2 : n * 10 + (c.toNat - '0'.toNat) > 2 ^ 64 - 1
      · simp only [h2, if_true]
        rw [if_neg]
        omega
      · simp only [h2, if_false]
        exact ih _ (not_lt.mp h2) h.2

theorem parseUint_digits (cs : List Char) (h : isDigits cs = true) :
    parseUint cs =
      if digitsValue cs ≤ 2 ^ 64 - 1 then (digitsValue cs, none)
      else (2 ^ 64 - 1, some .outOfRange) := by
  simp only [isDigits, Bool.and_eq_true, bne_iff_ne, ne_eq] at h
  cases cs with
  | nil => exact absurd rfl h.1
  | cons c cs => exact parseUintLoop_digits (c :: cs) 0 (Nat.zero_le _) h.2

theorem parseInt_negative (s : String) (rest : List Char) (hs : s.data = '-' :: rest)
    (h : isDigits rest = true) :
    (parseInt s).1 = max (-(2 ^ 63)) (-(digitsValue rest : Int)) := by
  have e2 : (2 : Nat) ^ 64 - 1 = 18446744073709551615 := by norm_num
  have hp := parseUint_digits rest h
  rw [e2] at hp
  by_cases hv : digitsValue rest ≤ 18446744073709551615
  · rw [if_pos hv] at hp
    by_cases h2 : digitsValue rest > 9223372036854775808
    · simp [parseInt, hs, hp, h2]
      omega
    · simp [parseInt, hs, hp, h2]
      omega
  · rw [if_neg hv] at hp
    simp [parseInt, hs, hp]
    omega

theorem parseInt_positive (s : String) (c : Char) (rest digits : List Char)
    (hs : s.data = c :: rest) (hc : c ≠ '-')
    (hd : (if c = '+' ∨ c = '-' then rest else c :: rest) = digits)
    (h : isDigits digits = true) :
    (parseInt s).1 = min (2 ^ 63 - 1) (digitsValue digits : Int) := by
  have e2 : (2 : Nat) ^ 64 - 1 = 18446744073709551615 := by norm_num
  have hp := parseUint_digits digits h
  rw [e2] at hp
  have hd2 : (if c = '+' then rest else c :: rest) = digits := by
    rw [← hd]; simp [hc]
  by_cases hv : digitsValue digits ≤ 18446744073709551615
  · rw [if_pos hv] at hp
    by_cases h2 : digitsValue digits ≥ 9223372036854775808
    · simp [parseInt, hs, hc, hd2, hp, h2]
      omega
    · simp [parseInt, hs, hc, hd2, hp, h2]
      omega
  · rw [if_neg hv] at hp
    simp [parseInt, hs, hc, hd2, hp]
    omega

/-- The value of `intFromNumber` on every decimal integer text: the integer the text
denotes, brought into the signed 64-bit range. -/
theorem intFromNumber_decimal (n : String) (v : Int) (h : decimalInteger n = some v) :
    intFromNumber n = max (-(2 ^ 63)) (min (2 ^ 63 - 1) v) := by
  unfold decimalInteger at h
  cases hd : n.data with
  | nil => simp [hd] at h
  | cons c rest =>
    have hne : n ≠ "" := by
      intro he
      rw [he] at hd
      exact List.noConfusion hd
    simp only [intFromNumber, hne, if_false]
    simp only [hd] at h
    by_cases hm : c = '-'
    · subst hm
      simp only [if_true] at h
      by_cases hdig : isDigits rest = true
      · simp only [hdig, if_true, Option.some.injEq] at h
        subst h
        rw [parseInt_negative n rest hd hdig]
        omega
      · simp [hdig] at h
    · simp only [hm, if_false] at h
      by_cases hp : c = '+'
      · subst hp
        simp only [if_true] at h
        by_cases hdig : isDigits rest = true
        · simp only [hdig, if_true, Option.some.injEq] at h
          subst h
          rw [parseInt_positive n '+' rest rest hd (by decide) (by simp) hdig]
          omega
        · simp [hdig] at h
      · simp only [hp, if_false] at h
        by_cases hdig : isDigits (c :: rest) = true
        · simp only [hdig, if_true, Option.some.injEq] at h
          subst h
          rw [parseInt_positive n c rest (c :: rest) hd hm (by simp [hp, hm]) hdig]
          omega
        · simp [hdig] at h

/-- Clause (c) of the policy where it holds: when the top-level `ErrorCode` is a decimal
integer within the signed 64-bit range, sent as a number or as a string, and the message
is not empty, the error carries the integer the field denotes. -/
theorem parseAPIError_error_code_in_range (U : UnicodeTables) (n message : String) (v : Int)
    (hv : decimalInteger n = some v) (hlo : -(2 ^ 63) ≤ v) (hhi : v ≤ 2 ^ 63 - 1)
    (hn : isValidNumber n = true) (hm : message ≠ "") :
    parseAPIError U (some (.object
        [("ErrorCode", .number n), ("ErrorMessage", .string message)])) =
      some { ErrorCode := v, ErrorMessage := message } ∧
    parseAPIError U (some (.object
        [("ErrorCode", .string n), ("ErrorMessage", .string message)])) =
      some { ErrorCode := v, ErrorMessage := message } := by
  have hval : intFromNumber n = v := by
    rw [intFromNumber_decimal n v hv]
    omega
  have h := (parseAPIError_policy U).2.2.2.2.2.1 n message hn hm
  rw [hval] at h
  exact h

/-- C9, evaluation at the failing input: the body
`{"ErrorCode": 99999999999999999999, "ErrorMessage": "boom"}` decodes as the envelope and
has a non-empty message, its `ErrorCode` denotes the integer 99999999999999999999, and
`parseAPIError` returns an error whose `ErrorCode` is 9223372036854775807, which is
neither that integer nor 0; the same holds when the field is sent as a string. -/
theorem parseAPIError_error_code_clamped (U : UnicodeTables) :
    decimalInteger "99999999999999999999" = some 99999999999999999999 ∧
    isValidNumber "99999999999999999999" = true ∧
    decodeJSON U (some (.object
        [("ErrorCode", .number "99999999999999999999"), ("ErrorMessage", .string "boom")])) =
      some { ErrorCode := "99999999999999999999", ErrorMessage := "boom" } ∧
    parseAPIError U (some (.object
        [("ErrorCode", .number "99999999999999999999"), ("ErrorMessage", .string "boom")])) =
      some { ErrorCode := 9223372036854775807, ErrorMessage := "boom" } ∧
    parseAPIError U (some (.object
        [("ErrorCode", .string "99999999999999999999"), ("ErrorMessage", .string "boom")])) =
      some { ErrorCode := 9223372036854775807, ErrorMessage := "boom" } ∧
    (9223372036854775807 : Int) ≠ 99999999999999999999 ∧
    (9223372036854775807 : Int) ≠ 0 :=
  ⟨by decide, by decide, rfl, rfl, rfl, by decide, by decide⟩

/-- C15, evaluation at the failing input: for the text `"99999999999999999999"`, a decimal
integer above the signed 64-bit range, `intFromNumber` returns the upper bound of the
range, not 0 (and the lower bound for its negative, and the upper bound again when a
fraction follows); a body carrying this number as `ErrorCode` yields that code.  In-range
integers give their value and the empty, fractional, exponent and non-numeric texts
give 0. -/
theorem intFromNumber_out_of_range :
    decimalInteger "99999999999999999999" = some 99999999999999999999 ∧
    intFromNumber "99999999999999999999" = 9223372036854775807 ∧
    intFromNumber "-99999999999999999999" = -9223372036854775808 ∧
    intFromNumber "99999999999999999999.5" = 9223372036854775807 ∧
    (∀ U : UnicodeTables, parseAPIError U (some (.object
        [("ErrorCode", .number "99999999999999999999"), ("ErrorMessage", .string "boom")])) =
      some { ErrorCode := 9223372036854775807, ErrorMessage := "boom" }) ∧
    intFromNumber "9223372036854775807" = 9223372036854775807 ∧
    intFromNumber "-9223372036854775808" = -9223372036854775808 ∧
    intFromNumber "42" = 42 ∧
    intFromNumber "" = 0 ∧
    intFromNumber "1.5" = 0 ∧
    intFromNumber "1e3" = 0 ∧
    intFromNumber "abc" = 0 := by
  refine ⟨by decide, by decide, by decide, by decide, fun U => rfl, by decide, by decide,
    by decide, by decide, by decide, by decide, by decide⟩

/-- C14: for each of the four response types with an `ErrorCode`/`ErrorMessage` pair,
`check` returns an error exactly when `intFromNumber(ErrorCode)` is not 0 or
`ErrorMessage` is not empty; the error is the `APIError` with that integer code and that
message and nothing else; the four methods decide alike on equal pairs. -/
theorem check_decides (code message cardInvoiceNo invoiceURL formURL amount status : String) :
    ((AddCardInvoiceResponse.check ⟨cardInvoiceNo, invoiceURL, code, message⟩).isSome = true ↔
      (intFromNumber code ≠ 0 ∨ message ≠ "")) ∧
    (∀ e, AddCardInvoiceResponse.check ⟨cardInvoiceNo, invoiceURL, code, message⟩ = some e →
      e = { ErrorCode := intFromNumber code, ErrorMessage := message }) ∧
    CardInvoiceFormResponse.check ⟨formURL, code, message⟩ =
      AddCardInvoiceResponse.check ⟨cardInvoiceNo, invoiceURL, code, message⟩ ∧
    CardInvoiceStatusResponse.check ⟨amount, status, code, message⟩ =
      AddCardInvoiceResponse.check ⟨cardInvoiceNo, invoiceURL, code, message⟩ ∧
    CardInvoiceReverseResponse.check ⟨code, message⟩ =
      AddCardInvoiceResponse.check ⟨cardInvoiceNo, invoiceURL, code, message⟩ := by
  refine ⟨?_, ?_, rfl, rfl, rfl⟩
  · by_cases h : intFromNumber code ≠ 0 ∨ message ≠ ""
    · simp only [AddCardInvoiceResponse.check, if_pos h, Option.isSome_some, true_iff]
      exact h
    · simp only [AddCardInvoiceResponse.check, if_neg h, Option.isSome_none]
      exact ⟨fun hf => absurd hf (by decide), fun hc => absurd hc h⟩
  · intro e he
    by_cases h : intFromNumber code ≠ 0 ∨ message ≠ ""
    · simp only [AddCardInvoiceResponse.check, if_pos h, Option.some.injEq] at he
      exact he.symm
    · simp only [AddCardInvoiceResponse.check, if_neg h] at he
      exact Option.noConfusion he

/-- Witness of C14: the pair `("7", "")` is an error with code 7 for each of the four
types, the pair `("", "")` is none. -/
theorem check_decides_witness :
    AddCardInvoiceResponse.check ⟨"1", "u", "7", ""⟩ = some { ErrorCode := 7 } ∧
    CardInvoiceFormResponse.check ⟨"f", "7", ""⟩ = some { ErrorCode := 7 } ∧
    CardInvoiceStatusResponse.check ⟨"10", "1", "7", ""⟩ = some { ErrorCode := 7 } ∧
    CardInvoiceReverseResponse.check ⟨"7", ""⟩ = some { ErrorCode := 7 } ∧
    (AddCardInvoiceResponse.check ⟨"1", "u", "", ""⟩).isSome = false :=
  ⟨((check_decides "7" "" "1" "u" "f" "10" "1").2.1 { ErrorCode := 7 } (by decide)).symm ▸
      (by decide),
   by decide, by decide, by decide, by decide⟩

/-- C16: the text of `APIError.Error()`: `"api error"` for the nil receiver; otherwise
`ErrorMessage` when `ErrorCode` is not 0 or `ErrorMessage` is not empty, even if that text
is empty, as for the error `check` builds from a non-zero code without message; otherwise
`Msg` if not empty, else `Raw` if not empty, else `"api error"`.  `HTTPStatus`, `Code`
and `MsgCode` have no influence. -/
theorem apiError_text (e : APIError) :
    APIError.Error none = "api error" ∧
    ((e.ErrorCode ≠ 0 ∨ e.ErrorMessage ≠ "") → APIError.Error (some e) = e.ErrorMessage) ∧
    (e.ErrorCode = 0 → e.ErrorMessage = "" → e.Msg ≠ "" → APIError.Error (some e) = e.Msg) ∧
    (e.ErrorCode = 0 → e.ErrorMessage = "" → e.Msg = "" → e.Raw ≠ "" →
      APIError.Error (some e) = e.Raw) ∧
    (e.ErrorCode = 0 → e.ErrorMessage = "" → e.Msg = "" → e.Raw = "" →
      APIError.Error (some e) = "api error") ∧
    (∀ httpStatus code msgCode : Int,
      APIError.Error (some { e with HTTPStatus := httpStatus, Code := code, MsgCode := msgCode })
        = APIError.Error (some e)) ∧
    (∀ code cardInvoiceNo invoiceURL : String, intFromNumber code ≠ 0 →
      ∃ err, AddCardInvoiceResponse.check ⟨cardInvoiceNo, invoiceURL, code, ""⟩ = some err ∧
        APIError.Error (some { err with Msg := "m", Raw := "r" }) = "") := by
  refine ⟨rfl, ?_, ?_, ?_, ?_, fun _ _ _ => rfl, ?_⟩
  · intro h
    simp only [APIError.Error, if_pos h]
  · intro h1 h2 h3
    simp [APIError.Error, h1, h2, h3]
  · intro h1 h2 h3 h4
    simp [APIError.Error, h1, h2, h3, h4]
  · intro h1 h2 h3 h4
    simp [APIError.Error, h1, h2, h3, h4]
  · intro code cardInvoiceNo invoiceURL h
    refine ⟨{ ErrorCode := intFromNumber code, ErrorMessage := "" }, ?_, ?_⟩
    · simp [AddCardInvoiceResponse.check, h]
    · simp [APIError.Error, h]

/-- Witness of C16: a code without message gives the empty text although `Msg` is set;
without code and message the text is `Msg`, then `Raw`. -/
theorem apiError_text_witness :
    APIError.Error (some { ErrorCode := 5, Msg := "m", Raw := "r" }) = "" ∧
    APIError.Error (some { Msg := "m", Raw := "r", Code := 3 }) = "m" ∧
    APIError.Error (some { Raw := "r", HTTPStatus := 500 }) = "r" ∧
    APIError.Error (some { HTTPStatus := 500, Code := 1, MsgCode := 2 }) = "api error" :=
  ⟨(apiError_text { ErrorCode := 5, Msg := "m", Raw := "r" }).2.1 (Or.inl (by decide)),
   (apiError_text { Msg := "m", Raw := "r", Code := 3 }).2.2.1 rfl rfl (by decide),
   (apiError_text { Raw := "r", HTTPStatus := 500 }).2.2.2.1 rfl rfl rfl (by decide),
   (apiError_text { HTTPStatus := 500, Code := 1, MsgCode := 2 }).2.2.2.2.1 rfl rfl rfl rfl⟩

end ExpressPay
